import Mathlib

/-!
Verification development for the conversational tool-orchestration core of the
neura-ruet backend.  Python strings are embedded as lists of characters and the
string primitives used by the services (strip, upper, lower, replace, split,
substring containment) are modelled over the ASCII fragment, which covers all
inputs the services manipulate (course codes, section letters, keyword lists).
-/

/-- Python strings are modelled as lists of characters. -/
abbrev Str := List Char

/-- Converts a Lean string literal into the embedded string type. -/
def strL (s : String) : Str := s.toList

/-- ASCII whitespace, as recognised by Python str.strip. -/
def isSpaceCh (c : Char) : Bool := decide (c.toNat = 32 ∨ c.toNat = 9 ∨ c.toNat = 10 ∨ c.toNat = 13)

/-- ASCII letter test, the fragment of Python str.isalpha used by the services. -/
def isAlphaCh (c : Char) : Bool :=
  decide ((65 ≤ c.toNat ∧ c.toNat ≤ 90) ∨ (97 ≤ c.toNat ∧ c.toNat ≤ 122))

/-- ASCII digit test, the fragment of Python str.isdigit used by the services. -/
def isDigitCh (c : Char) : Bool := decide (48 ≤ c.toNat ∧ c.toNat ≤ 57)

/-- ASCII alphanumeric test (Python str.isalnum on the ASCII fragment). -/
def isAlnumCh (c : Char) : Bool := isAlphaCh c || isDigitCh c

/-- ASCII upcasing of one character (Python str.upper on the ASCII fragment). -/
def upChar (c : Char) : Char :=
  if 97 ≤ c.toNat ∧ c.toNat ≤ 122 then Char.ofNat (c.toNat - 32) else c

/-- ASCII downcasing of one character (Python str.lower on the ASCII fragment). -/
def lowChar (c : Char) : Char :=
  if 65 ≤ c.toNat ∧ c.toNat ≤ 90 then Char.ofNat (c.toNat + 32) else c

/-- Python str.upper. -/
def pyUpper (s : Str) : Str := s.map upChar

/-- Python str.lower. -/
def pyLower (s : Str) : Str := s.map lowChar

/-- Python str.strip (no arguments): removes leading and trailing whitespace. -/
def pyStrip (s : Str) : Str :=
  ((s.dropWhile isSpaceCh).reverse.dropWhile isSpaceCh).reverse

/-- Does the second list start with the first one? -/
def startsWithL : Str → Str → Bool
  | [], _ => true
  | _ :: _, [] => false
  | a :: as, b :: bs => a == b && startsWithL as bs

/-- Python substring containment (the "in" operator on strings). -/
def containsL (needle : Str) : Str → Bool
  | [] => startsWithL needle []
  | c :: cs => startsWithL needle (c :: cs) || containsL needle cs

/-- Fueled worker for Python str.replace: replaces non-overlapping occurrences
from left to right.  The fuel is the length of the scanned list, which makes the
recursion structural and keeps the function kernel-reducible. -/
def replaceFuel (pat rep : Str) : Nat → Str → Str
  | _, [] => []
  | 0, l => l
  | f + 1, c :: cs =>
    if pat ≠ [] && startsWithL pat (c :: cs) then
      rep ++ replaceFuel pat rep f ((c :: cs).drop pat.length)
    else
      c :: replaceFuel pat rep f cs

/-- Python str.replace(pat, rep). -/
def replaceL (pat rep l : Str) : Str := replaceFuel pat rep l.length l

/-- Python str.split(sep) for a one-character separator. -/
def splitL (sep : Char) : Str → List Str
  | [] => [[]]
  | c :: cs =>
    if c = sep then [] :: splitL sep cs
    else
      match splitL sep cs with
      | [] => [[c]]
      | p :: ps => (c :: p) :: ps

/-- Numeric value of a digit string (Python int() on an all-digit string). -/
def digitsToNat (s : Str) : Nat := s.foldl (fun a c => a * 10 + (c.toNat - 48)) 0

/-- Python str.isalpha: non-empty and all letters. -/
def strIsAlpha (s : Str) : Bool := !s.isEmpty && s.all isAlphaCh

/-- Python str.isdigit: non-empty and all digits. -/
def strIsDigit (s : Str) : Bool := !s.isEmpty && s.all isDigitCh

instance {ε α : Type} [DecidableEq ε] [DecidableEq α] : DecidableEq (Except ε α) := fun a b =>
  match a, b with
  | .error e₁, .error e₂ =>
    if h : e₁ = e₂ then isTrue (by rw [h]) else isFalse (fun hc => by cases hc; exact h rfl)
  | .ok a₁, .ok a₂ =>
    if h : a₁ = a₂ then isTrue (by rw [h]) else isFalse (fun hc => by cases hc; exact h rfl)
  | .error _, .ok _ => isFalse (fun hc => by cases hc)
  | .ok _, .error _ => isFalse (fun hc => by cases hc)

theorem charToNat_inj {c d : Char} (h : c.toNat = d.toNat) : c = d :=
  Char.eq_of_val_eq (UInt32.toNat.inj h)

theorem charToNat_ofNat_of_lt {n : Nat} (h : n < 55296) : (Char.ofNat n).toNat = n := by
  have hv : n.isValidChar := Or.inl h
  rw [Char.ofNat, dif_pos hv]
  simp [Char.ofNatAux, Char.toNat, UInt32.toNat]

theorem charToNat_lt (c : Char) : c.toNat < 1114112 := by
  rcases c.valid with h | ⟨_, h⟩
  · exact Nat.lt_trans h (by norm_num)
  · exact h

theorem toNat_upChar (c : Char) :
    (upChar c).toNat = if 97 ≤ c.toNat ∧ c.toNat ≤ 122 then c.toNat - 32 else c.toNat := by
  unfold upChar
  split
  · next h => exact charToNat_ofNat_of_lt (by omega)
  · rfl

theorem upChar_upChar (c : Char) : upChar (upChar c) = upChar c := by
  apply charToNat_inj
  rw [toNat_upChar, toNat_upChar]
  by_cases h : 97 ≤ c.toNat ∧ c.toNat ≤ 122
  · rw [if_pos h]
    rw [if_neg (by omega)]
  · rw [if_neg h]
    rw [if_neg h]

theorem upChar_of_digit {c : Char} (h : isDigitCh c = true) : upChar c = c := by
  simp only [isDigitCh, decide_eq_true_eq] at h
  apply charToNat_inj
  rw [toNat_upChar]
  rw [if_neg (by omega)]

theorem isAlnum_of_alpha {c : Char} (h : isAlphaCh c = true) : isAlnumCh c = true := by
  simp [isAlnumCh, h]

theorem isAlnum_of_digit {c : Char} (h : isDigitCh c = true) : isAlnumCh c = true := by
  simp [isAlnumCh, h]

theorem upChar_dash : upChar '-' = '-' := by decide

theorem not_isAlnum_dash : isAlnumCh '-' = false := by decide

/-- Characters produced by replaceFuel come from the input or the replacement. -/
theorem mem_replaceFuel {pat rep : Str} {x : Char} :
    ∀ (f : Nat) (l : Str), x ∈ replaceFuel pat rep f l → x ∈ l ∨ x ∈ rep := by
  intro f
  induction f with
  | zero =>
    intro l h
    cases l with
    | nil => simp [replaceFuel] at h
    | cons c cs => exact Or.inl (by simpa [replaceFuel] using h)
  | succ f ih =>
    intro l h
    cases l with
    | nil => simp [replaceFuel] at h
    | cons c cs =>
      simp only [replaceFuel] at h
      split at h
      · rcases List.mem_append.mp h with h | h
        · exact Or.inr h
        · rcases ih _ h with h | h
          · exact Or.inl (List.mem_of_mem_drop h)
          · exact Or.inr h
      · rcases List.mem_cons.mp h with h | h
        · exact Or.inl (by simp [h])
        · rcases ih _ h with h | h
          · exact Or.inl (List.mem_cons_of_mem _ h)
          · exact Or.inr h

theorem mem_replaceL {pat rep l : Str} {x : Char} (h : x ∈ replaceL pat rep l) :
    x ∈ l ∨ x ∈ rep := mem_replaceFuel _ _ h

/-- Characters of any piece of a split come from the input. -/
theorem mem_of_mem_splitL {sep : Char} {x : Char} :
    ∀ {l : Str} {p : Str}, p ∈ splitL sep l → x ∈ p → x ∈ l := by
  intro l
  induction l with
  | nil => intro p hp hx; simp [splitL] at hp; simp [hp] at hx
  | cons c cs ih =>
    intro p hp hx
    simp only [splitL] at hp
    split at hp
    · rcases List.mem_cons.mp hp with h | h
      · simp [h] at hx
      · exact List.mem_cons_of_mem _ (ih h hx)
    · revert hp
      split
      · intro hp
        rcases List.mem_cons.mp hp with h | h
        · subst h
          rcases List.mem_singleton.mp hx ▸ hx with _
          simp at hx
          simp [hx]
        · simp at h
      · next p0 ps heq =>
        intro hp
        rcases List.mem_cons.mp hp with h | h
        · subst h
          rcases List.mem_cons.mp hx with h | h
          · simp [h]
          · exact List.mem_cons_of_mem _ (ih (heq ▸ List.mem_cons_self _ _) h)
        · exact List.mem_cons_of_mem _ (ih (heq ▸ List.mem_cons_of_mem _ h) hx)

/-!
Stable ordering.  SQL ORDER BY over an in-memory table is modelled as a stable
insertion sort: each element is inserted after every earlier element it ties
with, so insertion order is preserved among rows with an equal sort key.  This
is the reference list semantics for the order_by clauses of the services.
-/

/-- Inserts x into l, placing it before the first element y with le x y. -/
def insertLe (le : α → α → Bool) (x : α) : List α → List α
  | [] => [x]
  | y :: ys => if le x y then x :: y :: ys else y :: insertLe le x ys

/-- Stable insertion sort with a boolean comes-no-later relation. -/
def sortLe (le : α → α → Bool) : List α → List α
  | [] => []
  | x :: xs => insertLe le x (sortLe le xs)

theorem mem_insertLe {le : α → α → Bool} {x z : α} :
    ∀ {l : List α}, z ∈ insertLe le x l ↔ z = x ∨ z ∈ l := by
  intro l
  induction l with
  | nil => simp [insertLe]
  | cons y ys ih =>
    simp only [insertLe]
    split
    · simp [List.mem_cons]
    · simp only [List.mem_cons, ih]
      tauto

theorem mem_sortLe {le : α → α → Bool} {z : α} :
    ∀ {l : List α}, z ∈ sortLe le l ↔ z ∈ l := by
  intro l
  induction l with
  | nil => simp [sortLe]
  | cons x xs ih => simp [sortLe, mem_insertLe, ih]

theorem length_insertLe {le : α → α → Bool} {x : α} :
    ∀ (l : List α), (insertLe le x l).length = l.length + 1 := by
  intro l
  induction l with
  | nil => rfl
  | cons y ys ih =>
    simp only [insertLe]
    split
    · rfl
    · simp [ih]

theorem length_sortLe {le : α → α → Bool} :
    ∀ (l : List α), (sortLe le l).length = l.length := by
  intro l
  induction l with
  | nil => rfl
  | cons x xs ih => simp [sortLe, length_insertLe, ih]

theorem pairwise_insertLe {le : α → α → Bool} {x : α}
    (total : ∀ a b, le a b = true ∨ le b a = true)
    (trans : ∀ a b c, le a b = true → le b c = true → le a c = true) :
    ∀ {l : List α}, l.Pairwise (fun a b => le a b = true) →
      (insertLe le x l).Pairwise (fun a b => le a b = true) := by
  intro l
  induction l with
  | nil => intro _; simp [insertLe]
  | cons y ys ih =>
    intro hp
    rcases List.pairwise_cons.mp hp with ⟨hy, hys⟩
    simp only [insertLe]
    split
    · next hxy =>
      refine List.pairwise_cons.mpr ⟨?_, hp⟩
      intro z hz
      rcases List.mem_cons.mp hz with h | h
      · exact h ▸ hxy
      · exact trans x y z hxy (hy z h)
    · next hxy =>
      refine List.pairwise_cons.mpr ⟨?_, ih hys⟩
      intro z hz
      rcases mem_insertLe.mp hz with h | h
      · rw [h]
        rcases total x y with htot | htot
        · exact absurd htot hxy
        · exact htot
      · exact hy z h

theorem pairwise_sortLe {le : α → α → Bool}
    (total : ∀ a b, le a b = true ∨ le b a = true)
    (trans : ∀ a b c, le a b = true → le b c = true → le a c = true) :
    ∀ (l : List α), (sortLe le l).Pairwise (fun a b => le a b = true) := by
  intro l
  induction l with
  | nil => simp [sortLe]
  | cons x xs ih => exact pairwise_insertLe total trans ih

theorem filter_insertLe_neg {le : α → α → Bool} {x : α} {p : α → Bool} (hx : p x = false) :
    ∀ (l : List α), (insertLe le x l).filter p = l.filter p := by
  intro l
  induction l with
  | nil => simp [insertLe, hx]
  | cons y ys ih =>
    simp only [insertLe]
    split
    · simp [List.filter, hx]
    · simp [List.filter, ih]

theorem filter_insertLe_pos {le : α → α → Bool} {x : α} {p : α → Bool} (hx : p x = true) :
    ∀ (l : List α), (∀ y ∈ l, p y = true → le x y = true) →
      (insertLe le x l).filter p = x :: l.filter p := by
  intro l
  induction l with
  | nil => intro _; simp [insertLe, hx]
  | cons y ys ih =>
    intro hmono
    simp only [insertLe]
    split
    · simp [List.filter, hx]
    · next hxy =>
      have hpy : p y = false := by
        cases hy : p y
        · rfl
        · exact absurd (hmono y (List.mem_cons_self _ _) hy) hxy
      simp only [List.filter, hpy]
      exact ih (fun z hz hpz => hmono z (List.mem_cons_of_mem _ hz) hpz)

/-- Stability of the sort: for any class of mutually tied elements (all pairs
related by le in both directions), filtering the sorted list to that class
returns them in input order. -/
theorem filter_sortLe {le : α → α → Bool} {p : α → Bool}
    (hcls : ∀ a b, p a = true → p b = true → le a b = true) :
    ∀ (l : List α), (sortLe le l).filter p = l.filter p := by
  intro l
  induction l with
  | nil => rfl
  | cons x xs ih =>
    simp only [sortLe]
    cases hx : p x
    · rw [filter_insertLe_neg hx, ih]
      simp [List.filter, hx]
    · rw [filter_insertLe_pos hx _ (fun y _ hpy => hcls x y hx hpy), ih]
      simp [List.filter, hx]

namespace CheckMarks

/-- The cleaning step of the normalizer:
raw.strip().upper().replace(" ", "").replace("_", "-"). -/
def clean_code (raw : Str) : Str :=
  replaceL (strL "_") (strL "-") (replaceL (strL " ") [] (pyUpper (pyStrip raw)))

/-- The recovery step of the normalizer: s.replace("--", "-"). -/
def collapse_dashes (s : Str) : Str := replaceL (strL "--") (strL "-") s

/-- The recovery branch of the normalizer, run on the dash-collapsed string. -/
def recover_code (s2 : Str) : Str :=
  if 8 ≤ s2.length ∧ strIsAlpha (s2.take 3) = true ∧ s2.contains '-' = true then
    match splitL '-' s2 with
    | p0 :: p1 :: _ =>
      if strIsAlpha p0 = true ∧ strIsDigit p1 = true then
        if (p0.take 3).length = 3 ∧ (p1.take 4).length = 4 then
          p0.take 3 ++ '-' :: p1.take 4
        else []
      else []
    | _ => []
  else []

/-- Server-side course-code normalization of app/services/check_marks_service.py
(accepts cse1202 / cse 1202 / cse-1202 and recovers patterns like CSE--1202). -/
def normalize_course_code (raw : Str) : Str :=
  if raw = [] then []
  else if (clean_code raw).length = 7 ∧ strIsAlpha ((clean_code raw).take 3) = true ∧
      strIsDigit ((clean_code raw).drop 3) = true then
    (clean_code raw).take 3 ++ '-' :: (clean_code raw).drop 3
  else if (clean_code raw).length = 8 ∧ strIsAlpha ((clean_code raw).take 3) = true ∧
      (clean_code raw).getD 3 ' ' = '-' ∧ strIsDigit ((clean_code raw).drop 4) = true then
    clean_code raw
  else
    recover_code (collapse_dashes (clean_code raw))

/-- Python helper course key: uppercase, keep only alphanumerics. -/
def course_code_key (code : Str) : Str := (pyUpper code).filter isAlnumCh

/-- SQL-side course key of the ResultSheet query:
regexp_replace(upper(course_code), "[^A-Z0-9]", "", "g").  On the ASCII fragment
the uppercased alphanumeric characters are exactly A-Z and 0-9, so this agrees
with the Python-side key; it is kept as its own definition for fidelity. -/
def sql_course_key (code : Str) : Str := (pyUpper code).filter isAlnumCh

/-- Every character of the cleaned string (strip, upper, drop spaces, rewrite
underscores to hyphens) is fixed by upChar. -/
theorem clean_chars_upStable (raw : Str) : ∀ c ∈ clean_code raw, upChar c = c := by
  intro c hc
  rcases mem_replaceL hc with hc | hc
  · rcases mem_replaceL hc with hc | hc
    · rcases List.mem_map.mp hc with ⟨d, _, hd⟩
      rw [← hd]
      exact upChar_upChar d
    · simp [strL] at hc
  · simp only [strL] at hc
    rcases List.mem_singleton.mp (by simpa using hc) with rfl
    exact upChar_dash

theorem collapse_chars_upStable {s : Str} (hstab : ∀ c ∈ s, upChar c = c) :
    ∀ c ∈ collapse_dashes s, upChar c = c := by
  intro c hc
  rcases mem_replaceL hc with hc | hc
  · exact hstab c hc
  · simp only [strL] at hc
    rcases List.mem_singleton.mp (by simpa using hc) with rfl
    exact upChar_dash

/-- Canonical-shape property of a piece of the normalizer output. -/
def shapeOut (out : Str) : Prop :=
  out = [] ∨
  ∃ l r, out = l ++ '-' :: r ∧ l.length = 3 ∧ r.length = 4 ∧
    (∀ c ∈ l, isAlphaCh c = true ∧ upChar c = c) ∧
    (∀ c ∈ r, isDigitCh c = true ∧ upChar c = c)

theorem recover_code_shape {s2 : Str} (hstab : ∀ c ∈ s2, upChar c = c) :
    shapeOut (recover_code s2) := by
  unfold recover_code
  split
  · split
    · next p0 p1 rest hparts =>
      have hp0mem : p0 ∈ splitL '-' s2 := by
        rw [hparts]; exact List.mem_cons_self _ _
      have hp1mem : p1 ∈ splitL '-' s2 := by
        rw [hparts]; exact List.mem_cons_of_mem _ (List.mem_cons_self _ _)
      split
      · next had =>
        obtain ⟨hal, hdg⟩ := had
        split
        · next hlens =>
          refine Or.inr ⟨p0.take 3, p1.take 4, rfl, hlens.1, hlens.2, ?_, ?_⟩
          · intro c hc
            have hcp0 : c ∈ p0 := List.take_subset _ _ hc
            refine ⟨?_, hstab c (mem_of_mem_splitL hp0mem hcp0)⟩
            simp only [strIsAlpha, Bool.and_eq_true, List.all_eq_true] at hal
            exact hal.2 c hcp0
          · intro c hc
            have hcp1 : c ∈ p1 := List.take_subset _ _ hc
            refine ⟨?_, hstab c (mem_of_mem_splitL hp1mem hcp1)⟩
            simp only [strIsDigit, Bool.and_eq_true, List.all_eq_true] at hdg
            exact hdg.2 c hcp1
        · exact Or.inl rfl
      · exact Or.inl rfl
    · exact Or.inl rfl
  · exact Or.inl rfl

/-- The shape of every non-empty output of normalize_course_code: exactly three
letters, a hyphen, and exactly four digits, all characters fixed by upChar. -/
theorem normalize_course_code_shape (raw : Str) : shapeOut (normalize_course_code raw) := by
  unfold normalize_course_code
  split
  · exact Or.inl rfl
  have hstab : ∀ c ∈ clean_code raw, upChar c = c := clean_chars_upStable raw
  split
  · next h7 =>
    obtain ⟨hlen, halpha, hdig⟩ := h7
    refine Or.inr ⟨(clean_code raw).take 3, (clean_code raw).drop 3, rfl, ?_, ?_, ?_, ?_⟩
    · simp [List.length_take, hlen]
    · simp [List.length_drop, hlen]
    · intro c hc
      refine ⟨?_, hstab c (List.take_subset _ _ hc)⟩
      simp only [strIsAlpha, Bool.and_eq_true, List.all_eq_true] at halpha
      exact halpha.2 c hc
    · intro c hc
      refine ⟨?_, hstab c (List.drop_subset _ _ hc)⟩
      simp only [strIsDigit, Bool.and_eq_true, List.all_eq_true] at hdig
      exact hdig.2 c hc
  split
  · next h8 =>
    obtain ⟨hlen, halpha, hmid, hdig⟩ := h8
    have h3 : 3 < (clean_code raw).length := by omega
    have hsplit : clean_code raw = (clean_code raw).take 3 ++ '-' :: (clean_code raw).drop 4 := by
      conv_lhs => rw [← List.take_append_drop 3 (clean_code raw)]
      congr 1
      rw [List.drop_eq_getElem_cons h3]
      congr 1
      rw [← List.getD_eq_getElem (clean_code raw) ' ' h3]
      exact hmid
    refine Or.inr ⟨(clean_code raw).take 3, (clean_code raw).drop 4, hsplit, ?_, ?_, ?_, ?_⟩
    · simp [List.length_take, hlen]
    · simp [List.length_drop, hlen]
    · intro c hc
      refine ⟨?_, hstab c (List.take_subset _ _ hc)⟩
      simp only [strIsAlpha, Bool.and_eq_true, List.all_eq_true] at halpha
      exact halpha.2 c hc
    · intro c hc
      refine ⟨?_, hstab c (List.drop_subset _ _ hc)⟩
      simp only [strIsDigit, Bool.and_eq_true, List.all_eq_true] at hdig
      exact hdig.2 c hc
  · exact recover_code_shape (collapse_chars_upStable hstab)

/-- The alphanumeric key of a canonical-shape code drops exactly the hyphen. -/
theorem key_of_shape {l r : Str}
    (hl : ∀ c ∈ l, isAlphaCh c = true ∧ upChar c = c)
    (hr : ∀ c ∈ r, isDigitCh c = true ∧ upChar c = c) :
    course_code_key (l ++ '-' :: r) = l ++ r := by
  unfold course_code_key pyUpper
  rw [List.map_append, List.map_cons]
  have hml : l.map upChar = l := by
    rw [List.map_congr_left (fun a ha => (hl a ha).2)]
    exact List.map_id l
  have hmr : r.map upChar = r := by
    rw [List.map_congr_left (fun a ha => (hr a ha).2)]
    exact List.map_id r
  rw [hml, hmr, upChar_dash, List.filter_append, List.filter_cons, not_isAlnum_dash]
  simp only [Bool.false_eq_true, if_neg, ite_false]
  rw [List.filter_eq_self.mpr (fun a ha => isAlnum_of_alpha (hl a ha).1),
    List.filter_eq_self.mpr (fun a ha => isAlnum_of_digit (hr a ha).1)]

/-- On non-empty outputs of the normalizer, the alphanumeric course key is
injective: equal keys force equal normalized codes. -/
theorem normalize_course_code_key_inj {a b : Str}
    (ha : normalize_course_code a ≠ []) (hb : normalize_course_code b ≠ [])
    (hk : course_code_key (normalize_course_code a) = course_code_key (normalize_course_code b)) :
    normalize_course_code a = normalize_course_code b := by
  rcases normalize_course_code_shape a with h | ⟨la, ra, hea, hla, _, hca, hda⟩
  · exact absurd h ha
  rcases normalize_course_code_shape b with h | ⟨lb, rb, heb, hlb, _, hcb, hdb⟩
  · exact absurd h hb
  rw [hea, heb, key_of_shape hca hda, key_of_shape hcb hdb] at hk
  have hlen : la.length = lb.length := by rw [hla, hlb]
  obtain ⟨h1, h2⟩ := List.append_inj hk hlen
  rw [hea, heb, h1, h2]

end CheckMarks

/-- Profile dictionary built by the chat services from the logged-in student
(app/models/student_models.py: all of these columns are strings or null). -/
structure StudentProfile where
  neura_id : Option Str := none
  full_name : Option Str := none
  roll_no : Option Str := none
  dept : Option Str := none
  sect : Option Str := none
  series : Option Str := none
deriving DecidableEq

/-- Python truthiness filter on an optional string: None and the empty string
are falsy (models the pervasive "getattr(x, f, None) or ..." idiom). -/
def truthyOpt : Option Str → Option Str
  | none => none
  | some s => if s = [] then none else some s

/-- A JSON scalar that may arrive as an integer or as a string (the LLM emits
both); pydantic lax validation and the chat-service sanitizers coerce digit
strings to integers. -/
inductive JNum where
  | int (n : Int)
  | str (s : Str)
deriving DecidableEq

namespace CheckMarks

/-- The parsed JSON object handed to CheckMarksExtracted.model_validate; absent
and null fields are both none. -/
structure CheckMarksData where
  mode : Option Str := none
  course_code : Option Str := none
  ct_no : Option JNum := none
  question : Option Str := none
  missing_fields : Option (List Str) := none
  message : Option Str := none
deriving DecidableEq

inductive CMMode where
  | ok
  | ask
  | wrong_tool
deriving DecidableEq

/-- app/schemas/ai_schemas/check_marks_schema.py: CheckMarksExtracted.  Note
that the schema has NO validator tying mode="ask" to a non-empty question. -/
structure CheckMarksExtracted where
  mode : CMMode := .ok
  course_code : Str := []
  ct_no : Option Int := none
  question : Option Str := none
  missing_fields : List Str := []
  message : Option Str := none
deriving DecidableEq

/-- Pydantic validation failure (propagates out of the pipeline as an
exception). -/
inductive PydErr where
  | badMode
  | badInt
deriving DecidableEq

/-- Pydantic lax coercion of an optional int field: ints pass, digit strings
are coerced, anything else is a validation error. -/
def lax_opt_int : Option JNum → Except PydErr (Option Int)
  | none => .ok none
  | some (.int n) => .ok (some n)
  | some (.str s) =>
    if strIsDigit (pyStrip s) = true then .ok (some ((digitsToNat (pyStrip s) : Nat) : Int))
    else .error .badInt

def parse_cm_mode : Option Str → Except PydErr CMMode
  | none => .ok .ok
  | some m =>
    if m = strL "ok" then .ok .ok
    else if m = strL "ask" then .ok .ask
    else if m = strL "wrong_tool" then .ok .wrong_tool
    else .error .badMode

/-- CheckMarksExtracted.model_validate. -/
def validate_check_marks (d : CheckMarksData) : Except PydErr CheckMarksExtracted := do
  let mode ← parse_cm_mode d.mode
  let ct ← lax_opt_int d.ct_no
  .ok { mode := mode, course_code := d.course_code.getD [], ct_no := ct,
        question := d.question, missing_fields := d.missing_fields.getD [],
        message := d.message }

def default_ask_question : Str :=
  strL "Please provide course code and CT number (e.g., CSE-1202 CT-2)."

/-- The fallback dict substituted when both JSON parses of the raw LLM output
fail in _extract_json. -/
def fallback_ask_data : CheckMarksData :=
  { mode := some (strL "ask"), question := some default_ask_question,
    missing_fields := some [strL "course_code", strL "ct_no"] }

/-- The server-safety missing-field list computed in ok mode: course_code when
the normalized code is empty, ct_no when absent (in source order). -/
def missing_of (parsed : CheckMarksExtracted) : List Str :=
  (if normalize_course_code parsed.course_code = [] then [strL "course_code"] else []) ++
    (if parsed.ct_no = none then [strL "ct_no"] else [])

/-- _extract_json of app/services/check_marks_service.py, after the raw LLM
call: the argument is the parsed JSON object, or none when both the direct
parse and the brace-extraction parse failed. -/
def extract_json (p0 : Option CheckMarksData) : Except PydErr CheckMarksExtracted :=
  match validate_check_marks (p0.getD fallback_ask_data) with
  | .error e => .error e
  | .ok parsed =>
    if parsed.mode = .ok then
      if missing_of parsed = [] then
        .ok { parsed with course_code := normalize_course_code parsed.course_code }
      else
        .ok { mode := .ask, course_code := [], ct_no := none,
              question := some default_ask_question, missing_fields := missing_of parsed,
              message := none }
    else .ok parsed

/-- app/models/result_sheet_models.py: ResultSheet (the fields the pipeline
reads). -/
structure ResultSheetRow where
  id : Str
  created_by_teacher_id : Option Str := none
  ct_no : Option Int := none
  course_code : Str
  course_name : Str := []
  dept : Str
  sect : Str
  series : Str
  created_at : Nat := 0
deriving DecidableEq

/-- app/models/result_entry_models.py: ResultEntry. -/
structure ResultEntryRow where
  id : Str
  result_sheet_id : Str
  roll_no : Str
  marks : Str
deriving DecidableEq

/-- app/models/teacher_models.py: Teacher (the fields the pipeline reads). -/
structure TeacherRow where
  id : Str
  full_name : Option Str := none
deriving DecidableEq

structure CheckMarksDB where
  sheets : List ResultSheetRow := []
  entries : List ResultEntryRow := []
  teachers : List TeacherRow := []
deriving DecidableEq

/-- _normalize_roll: keep the digits of the full roll. -/
def normalize_roll (roll : Str) : Str := roll.filter isDigitCh

/-- str(getattr(student, "series", "") or "") of the pipeline. -/
def series_str (student : StudentProfile) : Str := (truthyOpt student.series).getD []

/-- The scope filter every ResultSheet query of the pipeline applies: the
dept/series of the logged-in student, the normalized course key and the
extracted CT number.  A missing student dept matches no row (SQL NULL). -/
def base_sheet_pred (student : StudentProfile) (key : Str) (ct : Option Int)
    (s : ResultSheetRow) : Bool :=
  (some s.dept == student.dept) && (s.series == series_str student) &&
    (sql_course_key s.course_code == key) && (s.ct_no == ct)

/-- order_by(desc(ResultSheet.created_at)). -/
def by_created_desc (a b : ResultSheetRow) : Bool := decide (b.created_at ≤ a.created_at)

/-- First ResultEntry of a sheet for a roll (query ... .first()). -/
def entry_for (db : CheckMarksDB) (sheetId roll : Str) : Option ResultEntryRow :=
  (db.entries.filter (fun e => e.result_sheet_id == sheetId && e.roll_no == roll)).head?

inductive SheetLookup where
  | noSheet
  | sheetOnly (s : ResultSheetRow)
  | found (s : ResultSheetRow) (e : ResultEntryRow)
deriving DecidableEq

/-- The sectionless branch: walk the candidate sheets newest-first and return
the first one that has an entry for the roll. -/
def first_with_entry (db : CheckMarksDB) (roll : Str) : List ResultSheetRow → SheetLookup
  | [] => .noSheet
  | s :: rest =>
    match entry_for db s.id roll with
    | some e => .found s e
    | none => first_with_entry db roll rest

/-- Steps 3-4 of run_check_marks_pipeline: locate the sheet and the entry,
scoped to the student profile. -/
def sheet_lookup (db : CheckMarksDB) (student : StudentProfile) (roll key : Str)
    (ct : Option Int) : SheetLookup :=
  match truthyOpt student.sect with
  | some sect =>
    match (sortLe by_created_desc
        (db.sheets.filter (fun s => base_sheet_pred student key ct s && s.sect == sect))).head? with
    | none => .noSheet
    | some s =>
      match entry_for db s.id roll with
      | some e => .found s e
      | none => .sheetOnly s
  | none =>
    first_with_entry db roll
      (sortLe by_created_desc (db.sheets.filter (base_sheet_pred student key ct)))

/-- The grounding payload handed to the final answer completion: exactly the
DB-derived fields, nothing else. -/
structure GroundedCtx where
  course_code : Str
  course_name : Str
  ct_no : Option Int
  marks : Str
  teacher_name : Str
deriving DecidableEq

def teacher_name_of (db : CheckMarksDB) (s : ResultSheetRow) : Str :=
  match s.created_by_teacher_id with
  | none => strL "Unknown"
  | some tid =>
    match (db.teachers.filter (fun t => t.id == tid)).head? with
    | none => strL "Unknown"
    | some t => (truthyOpt t.full_name).getD (strL "Unknown")

def grounded_ctx_of (db : CheckMarksDB) (s : ResultSheetRow) (e : ResultEntryRow)
    (ex : CheckMarksExtracted) : GroundedCtx :=
  { course_code := ex.course_code,
    course_name := if s.course_name = [] then strL "Unknown" else s.course_name,
    ct_no := ex.ct_no, marks := e.marks, teacher_name := teacher_name_of db s }

inductive GroundRole where
  | assistant
deriving DecidableEq

/-- Message content of the grounded answer call.  The type has a single
constructor carrying the DB context: by construction no raw user text and no
conversation history can appear in the call. -/
inductive GroundContent where
  | dbContext (ctx : GroundedCtx)
deriving DecidableEq

/-- The messages argument of the final llm.complete call of the pipeline:
a single assistant message holding the serialized DB context. -/
def answer_messages (ctx : GroundedCtx) : List (GroundRole × GroundContent) :=
  [(.assistant, .dbContext ctx)]

inductive CheckMarksStep where
  | wrongToolMsg (m : Str)
  | askMsg (q : Str)
  | noRollMsg
  | noSheetMsg (course_code : Str) (ct : Option Int)
  | notPublishedMsg (course_code : Str) (ct : Option Int)
  | grounded (s : ResultSheetRow) (e : ResultEntryRow)
      (call : List (GroundRole × GroundContent))
deriving DecidableEq

def default_wrong_tool_text : Str :=
  strL "This is not a marks request. Please use the correct tool."

def short_ask_text : Str := strL "Please provide course code and CT number."

/-- run_check_marks_pipeline of app/services/check_marks_service.py, with the
LLM extraction output supplied as an oracle (it is an arbitrary function of the
raw user text and the conversation history; none models a total parse
failure).  The grounded answer call is represented by its message list. -/
def run_check_marks_pipeline (db : CheckMarksDB) (student : StudentProfile)
    (p0 : Option CheckMarksData) : Except PydErr CheckMarksStep :=
  match extract_json p0 with
  | .error e => .error e
  | .ok ex =>
    match ex.mode with
    | .wrong_tool => .ok (.wrongToolMsg ((truthyOpt ex.message).getD default_wrong_tool_text))
    | .ask => .ok (.askMsg ((truthyOpt ex.question).getD short_ask_text))
    | .ok =>
      if normalize_roll ((truthyOpt student.roll_no).getD []) = [] then .ok .noRollMsg
      else
        match sheet_lookup db student (normalize_roll ((truthyOpt student.roll_no).getD []))
            (course_code_key ex.course_code) ex.ct_no with
        | .noSheet => .ok (.noSheetMsg ex.course_code ex.ct_no)
        | .sheetOnly _ => .ok (.notPublishedMsg ex.course_code ex.ct_no)
        | .found s e => .ok (.grounded s e (answer_messages (grounded_ctx_of db s e ex)))

end CheckMarks

theorem mem_of_head?_eq {l : List α} {a : α} (h : l.head? = some a) : a ∈ l := by
  rcases List.head?_eq_some_iff.mp h with ⟨ys, rfl⟩
  exact List.mem_cons_self _ _

namespace CheckMarks

/-- In ok mode, the extraction stage always hands the pipeline a non-empty
normalized course code. -/
theorem missing_of_nil {parsed : CheckMarksExtracted} (h : missing_of parsed = []) :
    normalize_course_code parsed.course_code ≠ [] ∧ parsed.ct_no ≠ none := by
  unfold missing_of at h
  constructor
  · intro hc
    simp [hc] at h
  · intro hct
    simp [hct] at h

theorem extract_ok_mode_ok {p0 : Option CheckMarksData} {ex : CheckMarksExtracted}
    (h : extract_json p0 = .ok ex) (hm : ex.mode = .ok) :
    ex.course_code ≠ [] ∧ ∃ raw, ex.course_code = normalize_course_code raw ∧ ex.ct_no ≠ none := by
  unfold extract_json at h
  split at h
  · cases h
  · next parsed hv =>
    split at h
    · next hok =>
      split at h
      · next hmiss =>
        cases h
        obtain ⟨hc, hct⟩ := missing_of_nil hmiss
        exact ⟨hc, parsed.course_code, rfl, hct⟩
      · cases h
        simp at hm
    · next hnok =>
      cases h
      exact absurd hm hnok

theorem first_with_entry_found {db : CheckMarksDB} {roll : Str}
    {s : ResultSheetRow} {e : ResultEntryRow} :
    ∀ {l : List ResultSheetRow}, first_with_entry db roll l = .found s e →
      s ∈ l ∧ entry_for db s.id roll = some e := by
  intro l
  induction l with
  | nil => intro h; cases h
  | cons x xs ih =>
    intro h
    simp only [first_with_entry] at h
    split at h
    · next e0 he0 =>
      cases h
      exact ⟨List.mem_cons_self _ _, he0⟩
    · rcases ih h with ⟨hmem, hent⟩
      exact ⟨List.mem_cons_of_mem _ hmem, hent⟩

/-- Any sheet/entry pair the lookup returns passed the student-scope sheet
filter and the roll-scoped entry filter. -/
theorem sheet_lookup_found {db : CheckMarksDB} {student : StudentProfile}
    {roll key : Str} {ct : Option Int} {s : ResultSheetRow} {e : ResultEntryRow}
    (h : sheet_lookup db student roll key ct = .found s e) :
    base_sheet_pred student key ct s = true ∧ entry_for db s.id roll = some e := by
  unfold sheet_lookup at h
  split at h
  · next sect hsect =>
    split at h
    · cases h
    · next s0 hhead =>
      split at h
      · next e0 hent =>
        cases h
        have hmem : s ∈ db.sheets.filter
            (fun s => base_sheet_pred student key ct s && s.sect == sect) :=
          mem_sortLe.mp (mem_of_head?_eq hhead)
        have := List.of_mem_filter hmem
        simp only [Bool.and_eq_true] at this
        exact ⟨this.1, hent⟩
      · cases h
  · rcases first_with_entry_found h with ⟨hmem, hent⟩
    have hmem2 : s ∈ db.sheets.filter (base_sheet_pred student key ct) :=
      mem_sortLe.mp hmem
    exact ⟨List.of_mem_filter hmem2, hent⟩

/-- Inversion of a grounded pipeline run. -/
theorem run_grounded_inv {db : CheckMarksDB} {student : StudentProfile}
    {p0 : Option CheckMarksData} {s : ResultSheetRow} {e : ResultEntryRow}
    {call : List (GroundRole × GroundContent)}
    (h : run_check_marks_pipeline db student p0 = .ok (.grounded s e call)) :
    ∃ ex, extract_json p0 = .ok ex ∧ ex.mode = .ok ∧
      sheet_lookup db student (normalize_roll ((truthyOpt student.roll_no).getD []))
        (course_code_key ex.course_code) ex.ct_no = .found s e ∧
      call = answer_messages (grounded_ctx_of db s e ex) := by
  unfold run_check_marks_pipeline at h
  split at h
  · cases h
  · next ex hex =>
    split at h
    · cases h
    · cases h
    · next hmode =>
      split at h
      · cases h
      · split at h
        · cases h
        · cases h
        · next s0 e0 hlook =>
          cases h
          exact ⟨ex, hex, hmode, hlook, rfl⟩

end CheckMarks

namespace FindMaterials

/-- app/schemas/ai_schemas/find_materials_schemas.py: the enums. -/
inductive MaterialType where
  | class_note
  | ct_question
  | lecture_slide
  | semester_question
deriving DecidableEq

inductive MatchMode where
  | exact
  | contains
deriving DecidableEq

inductive SortBy where
  | newest
  | oldest
deriving DecidableEq

inductive QueryMode where
  | query
  | ask
deriving DecidableEq

/-- The validated FindMaterialsLLMOutput instance.  limit and offset are kept
as naturals because validation enforces limit in [1,50] and offset at least 0. -/
structure FindMaterialsLLMOutput where
  mode : QueryMode := .query
  question : Option Str := none
  missing_fields : List Str := []
  material_type : MaterialType
  course_code : Option Str := none
  course_name : Option Str := none
  dept : Option Str := none
  sec : Option Str := none
  series : Option Str := none
  topic : Option Str := none
  written_by : Option Str := none
  ct_no : Option Int := none
  year : Option Int := none
  match_mode : MatchMode := .contains
  limit : Nat := 10
  offset : Nat := 0
  sort_by : SortBy := .newest
  -- the float confidence of the source, modelled in hundredths (0.7 = 70)
  confidence : Nat := 70
deriving DecidableEq

/-- The parsed JSON object (post json.loads, pre validation) of the planner
call in ai_chat_service.py; absent and null fields are both none. -/
structure FindMaterialsData where
  tool : Option Str := none
  mode : Option Str := none
  question : Option Str := none
  missing_fields : Option (List Str) := none
  material_type : Option Str := none
  course_code : Option Str := none
  course_name : Option Str := none
  dept : Option Str := none
  sec : Option Str := none
  series : Option Str := none
  topic : Option Str := none
  written_by : Option Str := none
  ct_no : Option JNum := none
  year : Option JNum := none
  limit : Option Int := none
  offset : Option Int := none
  match_mode : Option Str := none
  sort_by : Option Str := none
  confidence : Option Nat := none
deriving DecidableEq

/-- Step-8 sanitizer of ai_chat_service.py for a numeric field: a digit string
becomes an int, any other string becomes null. -/
def sanitize_num : Option JNum → Option JNum
  | some (.str s) =>
    if strIsDigit (pyStrip s) = true then some (.int ((digitsToNat (pyStrip s) : Nat) : Int))
    else none
  | x => x

/-- Step-8 sanitizer for the series field: a digit string is stripped, any
other string is left as is. -/
def sanitize_series : Option Str → Option Str
  | some s => if strIsDigit (pyStrip s) = true then some (pyStrip s) else some s
  | none => none

/-- Step 8 of run_tool_and_get_assistant_text: sanitize year, ct_no, series. -/
def sanitize (d : FindMaterialsData) : FindMaterialsData :=
  { d with year := sanitize_num d.year, ct_no := sanitize_num d.ct_no,
           series := sanitize_series d.series }

/-- Validation failure: the chat service distinguishes a material_type
enum/literal error (wrong-tool reply) from every other error. -/
inductive ValErr where
  | materialTypeLit
  | other
deriving DecidableEq

def parse_material_type : Option Str → Except ValErr MaterialType
  | none => .error .other
  | some s =>
    if s = strL "class_note" then .ok .class_note
    else if s = strL "ct_question" then .ok .ct_question
    else if s = strL "lecture_slide" then .ok .lecture_slide
    else if s = strL "semester_question" then .ok .semester_question
    else .error .materialTypeLit

def parse_query_mode : Option Str → Except ValErr QueryMode
  | none => .ok .query
  | some s =>
    if s = strL "query" then .ok .query
    else if s = strL "ask" then .ok .ask
    else .error .other

def parse_match_mode : Option Str → Except ValErr MatchMode
  | none => .ok .contains
  | some s =>
    if s = strL "exact" then .ok .exact
    else if s = strL "contains" then .ok .contains
    else .error .other

def parse_sort_by : Option Str → Except ValErr SortBy
  | none => .ok .newest
  | some s =>
    if s = strL "newest" then .ok .newest
    else if s = strL "oldest" then .ok .oldest
    else .error .other

def parse_tool : Option Str → Except ValErr Unit
  | none => .ok ()
  | some s => if s = strL "find_materials" then .ok () else .error .other

/-- Pydantic lax coercion of an optional int field. -/
def lax_int : Option JNum → Except ValErr (Option Int)
  | none => .ok none
  | some (.int n) => .ok (some n)
  | some (.str s) =>
    if strIsDigit (pyStrip s) = true then .ok (some ((digitsToNat (pyStrip s) : Nat) : Int))
    else .error .other

def check_limit : Option Int → Except ValErr Nat
  | none => .ok 10
  | some n => if 1 ≤ n ∧ n ≤ 50 then .ok n.toNat else .error .other

def check_offset : Option Int → Except ValErr Nat
  | none => .ok 0
  | some n => if 0 ≤ n then .ok n.toNat else .error .other

def check_confidence : Option Nat → Except ValErr Nat
  | none => .ok 70
  | some c => if c ≤ 100 then .ok c else .error .other

/-- The model_validator(mode="after") enforce_field_rules of
FindMaterialsLLMOutput, with the checks in source order. -/
def enforce_field_rules (o : FindMaterialsLLMOutput) : Except ValErr FindMaterialsLLMOutput :=
  if o.material_type = .ct_question ∧ o.topic ≠ none then .error .other
  else if o.material_type = .ct_question ∧ o.written_by ≠ none then .error .other
  else if o.material_type = .ct_question ∧ o.year ≠ none then .error .other
  else if o.material_type = .semester_question ∧ o.topic ≠ none then .error .other
  else if o.material_type = .semester_question ∧ o.written_by ≠ none then .error .other
  else if o.material_type = .semester_question ∧ o.ct_no ≠ none then .error .other
  else if o.material_type = .lecture_slide ∧ o.written_by ≠ none then .error .other
  else if o.material_type = .lecture_slide ∧ o.ct_no ≠ none then .error .other
  else if o.material_type = .lecture_slide ∧ o.year ≠ none then .error .other
  else if o.material_type = .class_note ∧ o.ct_no ≠ none then .error .other
  else if o.material_type = .class_note ∧ o.year ≠ none then .error .other
  else if o.mode = .ask ∧ (o.question = none ∨ o.question = some []) then .error .other
  else .ok o

/-- tool.output_model.model_validate: field-level validation (the
material_type literal check is surfaced first, matching the any(...) scan over
pydantic error lists in the chat service), then the after-validator. -/
def validate_find_materials (d : FindMaterialsData) : Except ValErr FindMaterialsLLMOutput :=
  match parse_material_type d.material_type with
  | .error e => .error e
  | .ok mt =>
  match parse_tool d.tool with
  | .error e => .error e
  | .ok _ =>
  match parse_query_mode d.mode with
  | .error e => .error e
  | .ok mode =>
  match parse_match_mode d.match_mode with
  | .error e => .error e
  | .ok mm =>
  match parse_sort_by d.sort_by with
  | .error e => .error e
  | .ok sb =>
  match lax_int d.ct_no with
  | .error e => .error e
  | .ok ct =>
  match lax_int d.year with
  | .error e => .error e
  | .ok yr =>
  match check_limit d.limit with
  | .error e => .error e
  | .ok lim =>
  match check_offset d.offset with
  | .error e => .error e
  | .ok off =>
  match check_confidence d.confidence with
  | .error e => .error e
  | .ok conf =>
  enforce_field_rules
    { mode := mode, question := d.question, missing_fields := d.missing_fields.getD [],
      material_type := mt, course_code := d.course_code, course_name := d.course_name,
      dept := d.dept, sec := d.sec, series := d.series, topic := d.topic,
      written_by := d.written_by, ct_no := ct, year := yr, match_mode := mm,
      limit := lim, offset := off, sort_by := sb, confidence := conf }

end FindMaterials

namespace MaterialService

open FindMaterials

/-- One row of a material table (app/models/*_models.py).  The four tables
share course_code/course_name/dept/sec/series/created_at; topic, written_by,
ct_no and year exist only on some tables and are gated by the model
descriptor, mirroring the hasattr checks of the service. -/
structure MaterialRow where
  id : Nat := 0
  drive_url : Str := []
  course_code : Str
  course_name : Str := []
  topic : Str := []
  written_by : Str := []
  ct_no : Int := 0
  year : Int := 0
  dept : Str
  sec : Str
  series : Str
  created_at : Nat := 0
deriving DecidableEq

/-- Which optional columns a material table has (hasattr(Model, field)). -/
structure MaterialModel where
  has_topic : Bool
  has_written_by : Bool
  has_ct_no : Bool
  has_year : Bool
deriving DecidableEq

/-- ClassNote has topic and written_by; CTQuestion has ct_no; LectureSlide has
topic; SemesterQuestion has year. -/
def model_for : MaterialType → MaterialModel
  | .class_note => ⟨true, true, false, false⟩
  | .ct_question => ⟨false, false, true, false⟩
  | .lecture_slide => ⟨true, false, false, false⟩
  | .semester_question => ⟨false, false, false, true⟩

/-- The four persisted material tables, in insertion order. -/
structure MaterialDB where
  class_notes : List MaterialRow := []
  ct_questions : List MaterialRow := []
  lecture_slides : List MaterialRow := []
  semester_questions : List MaterialRow := []
deriving DecidableEq

def table_for (db : MaterialDB) : MaterialType → List MaterialRow
  | .class_note => db.class_notes
  | .ct_question => db.ct_questions
  | .lecture_slide => db.lecture_slides
  | .semester_question => db.semester_questions

/-- _norm_text of material_service.py: strip, collapse falsy to None. -/
def norm_text : Option Str → Option Str
  | none => none
  | some s => if pyStrip s = [] then none else some (pyStrip s)

/-- _norm_course_code of material_service.py: clean separators, uppercase, and
canonicalize to LETTERS-DIGITS when the anchored pattern
([A-Za-z]{2,6})(\d{3,5}) matches the separator-free string; otherwise return
the cleaned uppercase string unchanged. -/
def norm_course_code (s0 : Option Str) : Option Str :=
  match norm_text s0 with
  | none => none
  | some t =>
    let s2 := pyUpper (replaceL (strL "_") (strL "-") (replaceL (strL " ") [] t))
    let target := replaceL (strL "-") [] s2
    let letters := target.takeWhile isAlphaCh
    let digits := target.drop letters.length
    if 2 ≤ letters.length ∧ letters.length ≤ 6 ∧ 3 ≤ digits.length ∧ digits.length ≤ 5 ∧
        strIsDigit digits = true then
      some (letters ++ '-' :: digits)
    else some (pyUpper s2)

/-- col.ilike(f"%{s.strip()}%"): case-insensitive containment of the stripped
pattern (no wildcard characters occur in the service inputs). -/
def ilike_contains (field pat : Str) : Bool := containsL (pyUpper (pyStrip pat)) (pyUpper field)

/-- The normalized query signals of find_materials_handler step 2. -/
structure Query where
  course_code : Option Str := none
  course_name : Option Str := none
  topic : Option Str := none
  written_by : Option Str := none
  ct_no : Option Int := none
  year : Option Int := none
deriving DecidableEq

def norm_signals (parsed : FindMaterialsLLMOutput) : Query :=
  { course_code := norm_course_code parsed.course_code,
    course_name := norm_text parsed.course_name,
    topic := norm_text parsed.topic,
    written_by := norm_text parsed.written_by,
    ct_no := parsed.ct_no, year := parsed.year }

/-- Python "a or b" on optional normalized strings. -/
def py_or (a b : Option Str) : Option Str :=
  match a with
  | some s => some s
  | none => b

/-- _series_from_profile: prefer the parsed series; otherwise the profile
series.  All four material tables declare series as a String column, so the
int-column branch of the source helper is dead and str() is the identity. -/
def series_from_profile (parsed_series profile_series : Option Str) : Option Str :=
  match parsed_series with
  | some s => some s
  | none => profile_series

/-- The scope triple of find_materials_handler step 0/2: dept and sec filled
from the profile when the parsed value is falsy, series via
_series_from_profile. -/
structure Scope where
  dept : Option Str := none
  sec : Option Str := none
  series : Option Str := none
deriving DecidableEq

def scope_of (parsed : FindMaterialsLLMOutput) (profile : StudentProfile) : Scope :=
  { dept := py_or (norm_text parsed.dept) (norm_text profile.dept),
    sec := py_or (norm_text parsed.sec) (norm_text profile.sect),
    series := series_from_profile parsed.series profile.series }

/-- _apply_scope_filters: hard dept/sec/series equality filters; a missing
value applies no constraint.  All four tables have these columns, so the
hasattr guards always hold. -/
def apply_scope_filters (sc : Scope) (r : MaterialRow) : Bool :=
  (match sc.dept with | none => true | some d => r.dept == d) &&
  (match sc.sec with | none => true | some s => r.sec == s) &&
  (match sc.series with | none => true | some s => r.series == s)

/-- The course_code summand of _score_expr: 100 for an exact match, else 60
for a partial (contains) match, else 0. -/
def code_score (q : Option Str) (r : MaterialRow) : Nat :=
  match q with
  | none => 0
  | some cc => if r.course_code == cc then 100 else if ilike_contains r.course_code cc then 60 else 0

def name_score (q : Option Str) (r : MaterialRow) : Nat :=
  match q with
  | none => 0
  | some cn => if ilike_contains r.course_name cn then 50 else 0

def topic_score (M : MaterialModel) (q : Option Str) (r : MaterialRow) : Nat :=
  match q with
  | none => 0
  | some t => if M.has_topic then (if ilike_contains r.topic t then 40 else 0) else 0

def written_by_score (M : MaterialModel) (q : Option Str) (r : MaterialRow) : Nat :=
  match q with
  | none => 0
  | some w => if M.has_written_by then (if ilike_contains r.written_by w then 20 else 0) else 0

def ct_score (M : MaterialModel) (q : Option Int) (r : MaterialRow) : Nat :=
  match q with
  | none => 0
  | some n => if M.has_ct_no then (if r.ct_no == n then 20 else 0) else 0

def year_score (M : MaterialModel) (q : Option Int) (r : MaterialRow) : Nat :=
  match q with
  | none => 0
  | some n => if M.has_year then (if r.year == n then 20 else 0) else 0

/-- _score_expr of material_service.py. -/
def score_expr (M : MaterialModel) (q : Query) (r : MaterialRow) : Nat :=
  code_score q.course_code r + name_score q.course_name r + topic_score M q.topic r +
    written_by_score M q.written_by r + ct_score M q.ct_no r + year_score M q.year r

inductive Phase where
  | strict
  | broad
deriving DecidableEq

/-- The strict phase of _apply_phase_filters: every provided filter is a hard
conjunct (exact for course_code/ct_no/year, contains for the text fields);
filters on columns the table lacks are skipped, as in the source. -/
def strict_filter (M : MaterialModel) (q : Query) (r : MaterialRow) : Bool :=
  (match q.course_code with | none => true | some cc => r.course_code == cc) &&
  (match q.ct_no with | none => true | some n => if M.has_ct_no then r.ct_no == n else true) &&
  (match q.year with | none => true | some n => if M.has_year then r.year == n else true) &&
  (match q.course_name with | none => true | some cn => ilike_contains r.course_name cn) &&
  (match q.topic with | none => true | some t => if M.has_topic then ilike_contains r.topic t else true) &&
  (match q.written_by with | none => true | some w => if M.has_written_by then ilike_contains r.written_by w else true)

/-- The text disjuncts collected by the broad phase (course_code becomes a
contains match and joins the OR group). -/
def text_candidates (M : MaterialModel) (q : Query) (r : MaterialRow) : List Bool :=
  (match q.course_code with | none => [] | some cc => [ilike_contains r.course_code cc]) ++
  (match q.course_name with | none => [] | some cn => [ilike_contains r.course_name cn]) ++
  (match q.topic with | none => [] | some t => if M.has_topic then [ilike_contains r.topic t] else []) ++
  (match q.written_by with | none => [] | some w => if M.has_written_by then [ilike_contains r.written_by w] else [])

/-- The broad phase of _apply_phase_filters: ct_no/year stay hard, the text
filters are OR-ed; with no text filters no text constraint is applied. -/
def broad_filter (M : MaterialModel) (q : Query) (r : MaterialRow) : Bool :=
  (match q.ct_no with | none => true | some n => if M.has_ct_no then r.ct_no == n else true) &&
  (match q.year with | none => true | some n => if M.has_year then r.year == n else true) &&
  (if (text_candidates M q r).isEmpty then true else (text_candidates M q r).any id)

def apply_phase_filters (M : MaterialModel) (phase : Phase) (q : Query) (r : MaterialRow) : Bool :=
  match phase with
  | .strict => strict_filter M q r
  | .broad => broad_filter M q r

/-- The order_by key relation: match_score descending, then created_at in the
requested direction (newest = descending, oldest = ascending). -/
def row_le (sb : SortBy) (a b : MaterialRow × Nat) : Bool :=
  decide (b.2 < a.2) || (a.2 == b.2 && (match sb with
    | .newest => decide (b.1.created_at ≤ a.1.created_at)
    | .oldest => decide (a.1.created_at ≤ b.1.created_at)))

/-- The tie key of the ordering: (match_score, created_at). -/
def row_key (a : MaterialRow × Nat) : Nat × Nat := (a.2, a.1.created_at)

/-- run_phase of find_materials_handler: scope filters, phase filters, score
column, order by (score desc, created_at per direction), then offset/limit. -/
def run_phase (table : List MaterialRow) (M : MaterialModel) (sc : Scope) (q : Query)
    (sb : SortBy) (off lim : Nat) (phase : Phase) : List (MaterialRow × Nat) :=
  ((sortLe (row_le sb)
      (((table.filter (apply_scope_filters sc)).filter (apply_phase_filters M phase q)).map
        (fun r => (r, score_expr M q r)))).drop off).take lim

/-- The dictionary returned by find_materials_handler (items keep the scored
rows; count is their number). -/
structure HandlerResult where
  material_type : MaterialType
  query : FindMaterialsLLMOutput
  count : Nat
  items : List (MaterialRow × Nat)
deriving DecidableEq

/-- The two-phase row selection of find_materials_handler: the strict phase,
then the broad phase only when the strict phase returned nothing. -/
def handler_rows (db : MaterialDB) (parsed : FindMaterialsLLMOutput)
    (profile : StudentProfile) : List (MaterialRow × Nat) :=
  if run_phase (table_for db parsed.material_type) (model_for parsed.material_type)
      (scope_of parsed profile) (norm_signals parsed) parsed.sort_by parsed.offset
      parsed.limit .strict = [] then
    run_phase (table_for db parsed.material_type) (model_for parsed.material_type)
      (scope_of parsed profile) (norm_signals parsed) parsed.sort_by parsed.offset
      parsed.limit .broad
  else
    run_phase (table_for db parsed.material_type) (model_for parsed.material_type)
      (scope_of parsed profile) (norm_signals parsed) parsed.sort_by parsed.offset
      parsed.limit .strict

/-- find_materials_handler of app/services/material_service.py. -/
def find_materials_handler (db : MaterialDB) (parsed : FindMaterialsLLMOutput)
    (profile : StudentProfile) : HandlerResult :=
  { material_type := parsed.material_type, query := parsed,
    count := (handler_rows db parsed profile).length,
    items := handler_rows db parsed profile }

theorem row_le_total (sb : SortBy) (a b : MaterialRow × Nat) :
    row_le sb a b = true ∨ row_le sb b a = true := by
  cases sb <;> simp [row_le, beq_iff_eq] <;> omega

theorem row_le_trans (sb : SortBy) (a b c : MaterialRow × Nat)
    (h1 : row_le sb a b = true) (h2 : row_le sb b c = true) : row_le sb a c = true := by
  cases sb <;> simp [row_le, beq_iff_eq] at h1 h2 ⊢ <;> omega

theorem row_le_of_key_eq (sb : SortBy) (a b : MaterialRow × Nat)
    (h : row_key a = row_key b) : row_le sb a b = true := by
  have h1 : a.2 = b.2 := congrArg Prod.fst h
  have h2 : a.1.created_at = b.1.created_at := congrArg Prod.snd h
  cases sb <;> simp [row_le, beq_iff_eq] <;> omega

end MaterialService

namespace AiChat

open FindMaterials MaterialService

/-- The keyword list of _is_personal_info_question in ai_chat_service.py. -/
def personal_keywords : List Str :=
  [strL "my roll", strL "roll no", strL "roll number",
   strL "my id", strL "student id", strL "neura id",
   strL "my name", strL "who am i",
   strL "my department", strL "my dept", strL "my section", strL "my series",
   strL "tell me my roll", strL "tell me my roll no"]

/-- _is_personal_info_question: any keyword occurs in the lowercased text. -/
def is_personal_info_question (text : Str) : Bool :=
  personal_keywords.any (fun k => containsL k (pyLower text))

/-- _normalize_group_fields: dept and series are ALWAYS overwritten from the
student profile dict (series via str(), the identity on the stored string). -/
def normalize_group_fields (parsed : FindMaterialsLLMOutput) (profile : StudentProfile) :
    FindMaterialsLLMOutput :=
  { parsed with dept := profile.dept, series := profile.series }

/-- The intent gate output consumed by run_tool_and_get_assistant_text.  The
service only reads intent and tool_name (via getattr), so intent is kept as an
arbitrary string to quantify over every value the router model could return. -/
structure RouteDecision where
  intent : Str
  tool_name : Option Str := none
deriving DecidableEq

/-- The observable outcome of one chat turn of run_tool_and_get_assistant_text.
Only the toolResult constructor carries output of the tool handler; every other
branch returns before the handler (and hence before any material query) runs. -/
inductive ChatResult where
  | blockedRefusal
  | generalChatReply
  | noJsonError
  | unknownToolError
  | wrongToolText
  | misunderstoodText
  | clarification (question : Option Str) (fields : List Str) (confidence : Nat)
  | toolResult (r : HandlerResult)
deriving DecidableEq

/-- run_tool_and_get_assistant_text of app/services/ai_chat_service.py.  The
two LLM calls are oracles: decision is whatever the router returned, and
planner is the JSON object parsed from the planner output (none when even the
brace-extraction fallback found no JSON, which raises ValueError). -/
def run_tool_and_get_assistant_text (decision : RouteDecision) (tool_name : Str)
    (user_text : Str) (profile : StudentProfile)
    (planner : Option FindMaterialsData) (db : MaterialDB) : ChatResult :=
  if decision.intent = strL "blocked" ∨ is_personal_info_question user_text = true then
    .blockedRefusal
  else if decision.intent = strL "general_chat" ∨ decision.intent = strL "neura_chat" then
    .generalChatReply
  else if ((truthyOpt decision.tool_name).getD tool_name) ≠ strL "find_materials" then
    .unknownToolError
  else
    match planner with
    | none => .noJsonError
    | some data =>
      match validate_find_materials (sanitize data) with
      | .error .materialTypeLit => .wrongToolText
      | .error .other => .misunderstoodText
      | .ok output =>
        if (normalize_group_fields output profile).mode = .ask then
          .clarification (normalize_group_fields output profile).question
            (normalize_group_fields output profile).missing_fields
            (normalize_group_fields output profile).confidence
        else
          .toolResult (find_materials_handler db (normalize_group_fields output profile) profile)

end AiChat

namespace Notices

/-- app/models/notice_models.py: Notice (the fields the retrieval reads).  The
sec column is kept optional because the query explicitly handles null-section
notices; has_embedding models vector_embeddings IS NOT NULL. -/
structure NoticeRow where
  id : Nat := 0
  title : Str := []
  notice_message : Str := []
  dept : Str
  sec : Option Str := none
  series : Str
  created_at : Nat := 0
  has_embedding : Bool := true
deriving DecidableEq

/-- _normalize_section of view_notice_service.py: strip, collapse
empty/none/null to null, uppercase, and accept only A, B, C. -/
def normalize_section : Option Str → Option Str
  | none => none
  | some s =>
    if pyStrip s = [] ∨ pyLower (pyStrip s) = strL "none" ∨ pyLower (pyStrip s) = strL "null" then
      none
    else if pyUpper (pyStrip s) = strL "A" ∨ pyUpper (pyStrip s) = strL "B" ∨
        pyUpper (pyStrip s) = strL "C" then
      some (pyUpper (pyStrip s))
    else none

/-- str(getattr(student, "series", "") or "") of _similarity_search. -/
def series_str (student : StudentProfile) : Str := (truthyOpt student.series).getD []

/-- getattr(student, "section", None) or getattr(student, "sec", None): the
student model only has section, and an empty section falls through to None. -/
def sec_of (student : StudentProfile) : Option Str := truthyOpt student.sect

/-- The row predicate of _similarity_search: embedding present, hard dept and
series equality, and the section clause (exact section or null section for a
sectioned student; only null section otherwise). -/
def access_pred (student : StudentProfile) (r : NoticeRow) : Bool :=
  r.has_embedding &&
  (some r.dept == student.dept) &&
  (r.series == series_str student) &&
  (match normalize_section (sec_of student) with
   | none => r.sec == none
   | some s => r.sec == some s || r.sec == none)

/-- _similarity_search of view_notice_service.py: guard on a usable dept and
series, filter by the access predicate, order by embedding distance ascending
(the distance is an oracle of the embedded query), take top_k. -/
def similarity_search (db : List NoticeRow) (dist : NoticeRow → Nat)
    (student : StudentProfile) (top_k : Nat) : List NoticeRow :=
  if (truthyOpt student.dept) = none ∨ series_str student = [] then []
  else
    (sortLe (fun a b => decide (dist a ≤ dist b)) (db.filter (access_pred student))).take top_k

end Notices

namespace Marksheet

/-- The ct_no JSON value of the marksheet request: a list of ints, or any
other JSON shape (rejected after the completeness check). -/
inductive CtVal where
  | ints (l : List Int)
  | notList
deriving DecidableEq

/-- The parsed JSON object of the marksheet extraction call. -/
structure MarksheetData where
  mode : Option Str := none
  question : Option Str := none
  dept : Option Str := none
  sect : Option Str := none
  series : Option Str := none
  course_code : Option Str := none
  ct_no : Option CtVal := none
deriving DecidableEq

/-- Python truthiness of the ct_no value: None and the empty list are falsy. -/
def ct_truthy : Option CtVal → Bool
  | none => false
  | some (.ints l) => !l.isEmpty
  | some .notList => true

/-- _normalize_course_code of generate_marksheet_service.py: strip, uppercase,
drop spaces, underscores to hyphens; insert a hyphen after the third character
when none is present and the string is long enough. -/
def normalize_course_code (code : Str) : Str :=
  let c := replaceL (strL "_") (strL "-") (replaceL (strL " ") [] (pyUpper (pyStrip code)))
  if c.contains '-' = false ∧ 7 ≤ c.length then c.take 3 ++ '-' :: c.drop 3 else c

/-- The ResultSheet query filter built by run_generate_marksheet_pipeline step
3: scoped to sheets created by the acting teacher, with dept/section/series and
course_code taken from the extracted JSON data. -/
structure SheetFilter where
  created_by_teacher_id : Str
  dept : Str
  sect : Str
  series : Str
  course_code : Str
  ct_list : List Int
deriving DecidableEq

inductive MarksheetStep where
  | askReply (q : Str)
  | missingReply (fields : List Str)
  | badCtReply
  | query (f : SheetFilter)
deriving DecidableEq

def required_fields : List Str :=
  [strL "dept", strL "section", strL "series", strL "course_code", strL "ct_no"]

/-- The missing-field scan: required keys whose value is falsy. -/
def missing_of (d : MarksheetData) : List Str :=
  (if (truthyOpt d.dept).isNone then [strL "dept"] else []) ++
  (if (truthyOpt d.sect).isNone then [strL "section"] else []) ++
  (if (truthyOpt d.series).isNone then [strL "series"] else []) ++
  (if (truthyOpt d.course_code).isNone then [strL "course_code"] else []) ++
  (if ct_truthy d.ct_no = false then [strL "ct_no"] else [])

/-- run_generate_marksheet_pipeline of generate_marksheet_service.py up to the
construction of the ResultSheet query (the extraction output is an oracle; the
later PDF generation consumes the fetched rows and is outside the claims). -/
def marksheet_step (teacher_id : Str) (d : MarksheetData) : MarksheetStep :=
  if d.mode = some (strL "ask") then
    .askReply ((d.question).getD (strL "Please provide missing info."))
  else if missing_of d ≠ [] then
    .missingReply (missing_of d)
  else
    match d.ct_no with
    | some (.ints cts) =>
      .query { created_by_teacher_id := teacher_id,
               dept := pyStrip (pyUpper ((d.dept).getD [])),
               sect := pyStrip (pyUpper ((d.sect).getD [])),
               series := pyStrip ((d.series).getD []),
               course_code := normalize_course_code ((d.course_code).getD []),
               ct_list := cts }
    | _ => .badCtReply

/-- The row predicate the query filter denotes over the result_sheets table. -/
def sheet_query_pred (f : SheetFilter) (s : CheckMarks.ResultSheetRow) : Bool :=
  (s.created_by_teacher_id == some f.created_by_teacher_id) &&
  (s.dept == f.dept) && (s.sect == f.sect) && (s.series == f.series) &&
  (s.course_code == f.course_code) &&
  (f.ct_list.any (fun c => s.ct_no == some c))

end Marksheet

namespace IntentGate

/-- Modelled from the spec: the Intent Gate of section 4.1 (the three-bucket
general_chat / blocked / tool_query classifier with defensive parsing).  Its
implementation, gate_intent, is imported by
app/services/ai_chat_service_teacher.py and its prompt TOOL_GATE_JSON_PROMPT
(with exactly these three intents) is in app/ai/sys_prompts.py, but the
function itself is absent from the source tree; only its caller and prompt
remain.  The decision record carries the intent and reason fields the prompt
requests. -/
structure GateDecision where
  intent : Str
  reason : Str := []
deriving DecidableEq

/-- Modelled from the spec: the total-failure default decision, tool_query. -/
def default_decision : GateDecision :=
  { intent := strL "tool_query", reason := strL "default" }

/-- The brace-extraction fallback: the substring from the first opening brace
to the last closing brace, exactly as the sibling parsers of the repository
compute it (raw.find and raw.rfind). -/
def extract_braces (raw : Str) : Option Str :=
  match raw.findIdx? (· == '{'), (raw.reverse.findIdx? (· == '}')) with
  | some s, some e' => some ((raw.drop s).take (raw.length - 1 - e' + 1 - s))
  | _, _ => none

/-- Modelled from the spec: gate_intent parses the classifier output directly;
on failure it re-parses the first brace-delimited substring; on total failure
it falls back to the tool_query default instead of raising.  The JSON decoder
is an oracle parameter (an external library function). -/
def gate_intent (jsonParse : Str → Option GateDecision) (raw : Str) : GateDecision :=
  match jsonParse raw with
  | some d => d
  | none =>
    match extract_braces raw with
    | none => default_decision
    | some sub => (jsonParse sub).getD default_decision

end IntentGate

namespace FindMaterials

/-- Inversion of the after-validator: success returns the record unchanged and
certifies that every sub-type rule and the ask rule were respected. -/
theorem enforce_field_rules_ok {x o : FindMaterialsLLMOutput}
    (h : enforce_field_rules x = .ok o) :
    o = x ∧
    (x.material_type = .ct_question → x.topic = none ∧ x.written_by = none ∧ x.year = none) ∧
    (x.material_type = .semester_question → x.topic = none ∧ x.written_by = none ∧ x.ct_no = none) ∧
    (x.material_type = .lecture_slide → x.written_by = none ∧ x.ct_no = none ∧ x.year = none) ∧
    (x.material_type = .class_note → x.ct_no = none ∧ x.year = none) ∧
    (x.mode = .ask → ∃ q, x.question = some q ∧ q ≠ []) := by
  unfold enforce_field_rules at h
  by_cases c1 : x.material_type = .ct_question ∧ x.topic ≠ none
  · rw [if_pos c1] at h; cases h
  rw [if_neg c1] at h
  by_cases c2 : x.material_type = .ct_question ∧ x.written_by ≠ none
  · rw [if_pos c2] at h; cases h
  rw [if_neg c2] at h
  by_cases c3 : x.material_type = .ct_question ∧ x.year ≠ none
  · rw [if_pos c3] at h; cases h
  rw [if_neg c3] at h
  by_cases c4 : x.material_type = .semester_question ∧ x.topic ≠ none
  · rw [if_pos c4] at h; cases h
  rw [if_neg c4] at h
  by_cases c5 : x.material_type = .semester_question ∧ x.written_by ≠ none
  · rw [if_pos c5] at h; cases h
  rw [if_neg c5] at h
  by_cases c6 : x.material_type = .semester_question ∧ x.ct_no ≠ none
  · rw [if_pos c6] at h; cases h
  rw [if_neg c6] at h
  by_cases c7 : x.material_type = .lecture_slide ∧ x.written_by ≠ none
  · rw [if_pos c7] at h; cases h
  rw [if_neg c7] at h
  by_cases c8 : x.material_type = .lecture_slide ∧ x.ct_no ≠ none
  · rw [if_pos c8] at h; cases h
  rw [if_neg c8] at h
  by_cases c9 : x.material_type = .lecture_slide ∧ x.year ≠ none
  · rw [if_pos c9] at h; cases h
  rw [if_neg c9] at h
  by_cases c10 : x.material_type = .class_note ∧ x.ct_no ≠ none
  · rw [if_pos c10] at h; cases h
  rw [if_neg c10] at h
  by_cases c11 : x.material_type = .class_note ∧ x.year ≠ none
  · rw [if_pos c11] at h; cases h
  rw [if_neg c11] at h
  by_cases c12 : x.mode = .ask ∧ (x.question = none ∨ x.question = some [])
  · rw [if_pos c12] at h; cases h
  rw [if_neg c12] at h
  have hxo : x = o := Except.ok.inj h
  subst hxo
  refine ⟨rfl, ?_, ?_, ?_, ?_, ?_⟩
  · intro hmt
    refine ⟨?_, ?_, ?_⟩
    · by_contra hne; exact c1 ⟨hmt, hne⟩
    · by_contra hne; exact c2 ⟨hmt, hne⟩
    · by_contra hne; exact c3 ⟨hmt, hne⟩
  · intro hmt
    refine ⟨?_, ?_, ?_⟩
    · by_contra hne; exact c4 ⟨hmt, hne⟩
    · by_contra hne; exact c5 ⟨hmt, hne⟩
    · by_contra hne; exact c6 ⟨hmt, hne⟩
  · intro hmt
    refine ⟨?_, ?_, ?_⟩
    · by_contra hne; exact c7 ⟨hmt, hne⟩
    · by_contra hne; exact c8 ⟨hmt, hne⟩
    · by_contra hne; exact c9 ⟨hmt, hne⟩
  · intro hmt
    refine ⟨?_, ?_⟩
    · by_contra hne; exact c10 ⟨hmt, hne⟩
    · by_contra hne; exact c11 ⟨hmt, hne⟩
  · intro hask
    cases hq : x.question with
    | none => exact absurd ⟨hask, Or.inl hq⟩ c12
    | some q =>
      cases hqe : decide (q = []) with
      | false =>
        exact ⟨q, rfl, of_decide_eq_false hqe⟩
      | true =>
        have : q = [] := of_decide_eq_true hqe
        exact absurd ⟨hask, Or.inr (by rw [hq, this])⟩ c12

/-- Inversion of a successful validation: the validated record passed through
the after-validator and its fields are the parsed field values. -/
theorem validate_ok_inv {d : FindMaterialsData} {o : FindMaterialsLLMOutput}
    (h : validate_find_materials d = .ok o) :
    ∃ x, enforce_field_rules x = .ok o ∧
      parse_material_type d.material_type = .ok x.material_type ∧
      parse_query_mode d.mode = .ok x.mode ∧
      x.question = d.question ∧ x.topic = d.topic ∧ x.written_by = d.written_by ∧
      lax_int d.ct_no = .ok x.ct_no ∧ lax_int d.year = .ok x.year ∧
      x.course_code = d.course_code ∧ x.dept = d.dept ∧ x.sec = d.sec ∧
      x.series = d.series := by
  unfold validate_find_materials at h
  split at h
  · cases h
  · next mt hmt =>
    split at h
    · cases h
    · next u htool =>
      split at h
      · cases h
      · next mode hmode =>
        split at h
        · cases h
        · next mm hmm =>
          split at h
          · cases h
          · next sb hsb =>
            split at h
            · cases h
            · next ct hct =>
              split at h
              · cases h
              · next yr hyr =>
                split at h
                · cases h
                · next lim hlim =>
                  split at h
                  · cases h
                  · next off hoff =>
                    split at h
                    · cases h
                    · next conf hconf =>
                      exact ⟨_, h, hmt, hmode, rfl, rfl, rfl, hct, hyr, rfl, rfl, rfl, rfl⟩

/-- The fields of any validated instance respect the sub-type exclusivity and
ask rules. -/
theorem validate_ok_rules {d : FindMaterialsData} {o : FindMaterialsLLMOutput}
    (h : validate_find_materials d = .ok o) :
    (o.material_type = .ct_question → o.topic = none ∧ o.written_by = none ∧ o.year = none) ∧
    (o.material_type = .semester_question → o.topic = none ∧ o.written_by = none ∧ o.ct_no = none) ∧
    (o.material_type = .lecture_slide → o.written_by = none ∧ o.ct_no = none ∧ o.year = none) ∧
    (o.material_type = .class_note → o.ct_no = none ∧ o.year = none) ∧
    (o.mode = .ask → ∃ q, o.question = some q ∧ q ≠ []) := by
  obtain ⟨x, hx, -, -, -, -, -, -, -, -, -, -, -⟩ := validate_ok_inv h
  obtain ⟨rfl, h1, h2, h3, h4, h5⟩ := enforce_field_rules_ok hx
  exact ⟨h1, h2, h3, h4, h5⟩

end FindMaterials

namespace MaterialService

open FindMaterials

/-- Any row a phase returns was in the table and passed both the scope filter
and the phase filter; its score column is the match score. -/
theorem mem_run_phase {table : List MaterialRow} {M : MaterialModel} {sc : Scope}
    {q : Query} {sb : SortBy} {off lim : Nat} {phase : Phase} {it : MaterialRow × Nat}
    (h : it ∈ run_phase table M sc q sb off lim phase) :
    apply_scope_filters sc it.1 = true ∧ apply_phase_filters M phase q it.1 = true ∧
      it.2 = score_expr M q it.1 ∧ it.1 ∈ table := by
  unfold run_phase at h
  have h1 := List.mem_of_mem_take h
  have h2 := List.mem_of_mem_drop h1
  have h3 := mem_sortLe.mp h2
  obtain ⟨r, hr, rfl⟩ := List.mem_map.mp h3
  have h4 := List.of_mem_filter hr
  have h5 := List.mem_of_mem_filter hr
  have h6 := List.of_mem_filter h5
  have h7 := List.mem_of_mem_filter h5
  exact ⟨h6, h4, rfl, h7⟩

theorem mem_handler_rows {db : MaterialDB} {parsed : FindMaterialsLLMOutput}
    {profile : StudentProfile} {it : MaterialRow × Nat}
    (h : it ∈ handler_rows db parsed profile) :
    apply_scope_filters (scope_of parsed profile) it.1 = true ∧
      it.1 ∈ table_for db parsed.material_type := by
  unfold handler_rows at h
  split at h
  · obtain ⟨h1, _, _, h4⟩ := mem_run_phase h
    exact ⟨h1, h4⟩
  · obtain ⟨h1, _, _, h4⟩ := mem_run_phase h
    exact ⟨h1, h4⟩

theorem py_or_self (a : Option Str) : py_or a a = a := by
  cases a <;> rfl

theorem series_from_profile_self (a : Option Str) : series_from_profile a a = a := by
  cases a <;> rfl

end MaterialService

namespace FindMaterials

/-- Is a field of a different material sub-type populated in the raw data? -/
def foreign_field_set (mt : MaterialType) (d : FindMaterialsData) : Bool :=
  match mt with
  | .class_note => d.ct_no != none || d.year != none
  | .lecture_slide => d.written_by != none || d.ct_no != none || d.year != none
  | .ct_question => d.topic != none || d.written_by != none || d.year != none
  | .semester_question => d.topic != none || d.written_by != none || d.ct_no != none

theorem lax_int_eq_none {j : Option JNum} (h : lax_int j = .ok none) : j = none := by
  cases j with
  | none => rfl
  | some v =>
    cases v with
    | int n => simp [lax_int] at h
    | str s =>
      simp only [lax_int] at h
      split at h
      · simp at h
      · cases h

/-- Validating raw data that populates a field of a different material
sub-type never succeeds. -/
theorem validate_foreign_fails {d : FindMaterialsData} {mt : MaterialType}
    (hparse : parse_material_type d.material_type = .ok mt)
    (hforeign : foreign_field_set mt d = true) :
    ∃ e, validate_find_materials d = .error e := by
  cases hv : validate_find_materials d with
  | error e => exact ⟨e, rfl⟩
  | ok o =>
    exfalso
    obtain ⟨x, hx, hmt, _, _, htopic, hwb, hct, hyr, _, _, _, _⟩ := validate_ok_inv hv
    obtain ⟨rfl, r1, r2, r3, r4, _⟩ := enforce_field_rules_ok hx
    rw [hparse] at hmt
    have hmt2 : mt = o.material_type := Except.ok.inj hmt
    cases mt with
    | class_note =>
      obtain ⟨hc, hy⟩ := r4 hmt2.symm
      simp only [foreign_field_set, Bool.or_eq_true, bne_iff_ne, ne_eq] at hforeign
      rcases hforeign with hf | hf
      · rw [hc] at hct
        exact hf (lax_int_eq_none hct)
      · rw [hy] at hyr
        exact hf (lax_int_eq_none hyr)
    | lecture_slide =>
      obtain ⟨hw, hc, hy⟩ := r3 hmt2.symm
      simp only [foreign_field_set, Bool.or_eq_true, bne_iff_ne, ne_eq] at hforeign
      rcases hforeign with (hf | hf) | hf
      · rw [hwb] at hw
        exact hf hw
      · rw [hc] at hct
        exact hf (lax_int_eq_none hct)
      · rw [hy] at hyr
        exact hf (lax_int_eq_none hyr)
    | ct_question =>
      obtain ⟨ht, hw, hy⟩ := r1 hmt2.symm
      simp only [foreign_field_set, Bool.or_eq_true, bne_iff_ne, ne_eq] at hforeign
      rcases hforeign with (hf | hf) | hf
      · rw [htopic] at ht
        exact hf ht
      · rw [hwb] at hw
        exact hf hw
      · rw [hy] at hyr
        exact hf (lax_int_eq_none hyr)
    | semester_question =>
      obtain ⟨ht, hw, hc⟩ := r2 hmt2.symm
      simp only [foreign_field_set, Bool.or_eq_true, bne_iff_ne, ne_eq] at hforeign
      rcases hforeign with (hf | hf) | hf
      · rw [htopic] at ht
        exact hf ht
      · rw [hwb] at hw
        exact hf hw
      · rw [hc] at hct
        exact hf (lax_int_eq_none hct)

end FindMaterials

namespace AiChat

open FindMaterials MaterialService

/-- Inversion of a tool run: the handler executes only on a planner object
that validated successfully, whose normalized form is not an ask decision. -/
theorem run_toolResult_inv {decision : RouteDecision} {tool_name user_text : Str}
    {profile : StudentProfile} {planner : Option FindMaterialsData}
    {db : MaterialDB} {r : HandlerResult}
    (h : run_tool_and_get_assistant_text decision tool_name user_text profile planner db =
      .toolResult r) :
    ∃ data output, planner = some data ∧
      validate_find_materials (sanitize data) = .ok output ∧
      (normalize_group_fields output profile).mode ≠ .ask ∧
      r = find_materials_handler db (normalize_group_fields output profile) profile := by
  unfold run_tool_and_get_assistant_text at h
  split at h
  · cases h
  split at h
  · cases h
  split at h
  · cases h
  split at h
  · cases h
  next data =>
    split at h
    · cases h
    · cases h
    · next output hval =>
      split at h
      · cases h
      · next hmode =>
        cases h
        exact ⟨data, output, rfl, hval, hmode, rfl⟩

end AiChat

/-!
Concrete worked examples used by the claim witnesses.
-/

/-- A logged-in CSE student profile. -/
def exStudent : StudentProfile :=
  { neura_id := some (strL "N1"), full_name := some (strL "Test Student"),
    roll_no := some (strL "2103001"), dept := some (strL "CSE"),
    sect := some (strL "A"), series := some (strL "23") }

/-- One class note of the student group. -/
def exNote : MaterialService.MaterialRow :=
  { id := 1, drive_url := strL "drive://n1", course_code := strL "CSE-1202",
    course_name := strL "Structured Programming", topic := strL "Array",
    written_by := strL "Rafin", dept := strL "CSE", sec := strL "A",
    series := strL "23", created_at := 5 }

def exMaterialDb : MaterialService.MaterialDB := { class_notes := [exNote] }

/-- A decision whose strict phase misses (topic does not match) but whose
broad phase hits through the course name. -/
def exBroadParsed : FindMaterials.FindMaterialsLLMOutput :=
  { material_type := .class_note, course_name := some (strL "structured"),
    topic := some (strL "zzz") }

/-- The result sheet, entry and teacher of the check_marks witness. -/
def cmSheet : CheckMarks.ResultSheetRow :=
  { id := strL "s1", created_by_teacher_id := some (strL "t1"), ct_no := some 2,
    course_code := strL "CSE 1202", course_name := strL "Structured Programming",
    dept := strL "CSE", sect := strL "A", series := strL "23", created_at := 1 }

def cmEntry : CheckMarks.ResultEntryRow :=
  { id := strL "e1", result_sheet_id := strL "s1", roll_no := strL "2103001",
    marks := strL "25" }

def cmTeacher : CheckMarks.TeacherRow := { id := strL "t1", full_name := some (strL "Md Rafin") }

def cmDb : CheckMarks.CheckMarksDB :=
  { sheets := [cmSheet], entries := [cmEntry], teachers := [cmTeacher] }

/-- Two different extractions of the same marks request. -/
def cmD1 : CheckMarks.CheckMarksData :=
  { mode := some (strL "ok"), course_code := some (strL "cse1202"), ct_no := some (.int 2) }

def cmD2 : CheckMarks.CheckMarksData :=
  { mode := some (strL "ok"), course_code := some (strL "CSE 1202"), ct_no := some (.str (strL "2")) }

/-- The grounding context both runs produce. -/
def cmCtx : CheckMarks.GroundedCtx :=
  { course_code := strL "CSE-1202", course_name := strL "Structured Programming",
    ct_no := some 2, marks := strL "25", teacher_name := strL "Md Rafin" }

/-- A planner output that sets ct_no for a class note. -/
def exForeignData : FindMaterials.FindMaterialsData :=
  { material_type := some (strL "class_note"), ct_no := some (.int 2) }

/-- A valid ask-mode planner output for find_materials. -/
def exAskData : FindMaterials.FindMaterialsData :=
  { mode := some (strL "ask"), question := some (strL "Which course?"),
    material_type := some (strL "class_note") }

/-- A marks request whose course code cannot be normalized (two letters). -/
def cmBadCode : CheckMarks.CheckMarksData :=
  { mode := some (strL "ok"), course_code := some (strL "CE-1202"), ct_no := some (.int 2) }

/-- A notice visible to every section: its section is null. -/
def exNullSecNotice : Notices.NoticeRow :=
  { id := 7, title := strL "Class test moved", dept := strL "CSE", sec := none,
    series := strL "23", created_at := 3, has_embedding := true }

/-- The validated form of exAskData. -/
def exAskOut : FindMaterials.FindMaterialsLLMOutput :=
  { mode := .ask, question := some (strL "Which course?"), material_type := .class_note }

/-- The validated form of cmBadCode (course code not yet normalized). -/
def cmBadParsed : CheckMarks.CheckMarksExtracted :=
  { mode := .ok, course_code := strL "CE-1202", ct_no := some 2 }

/-!
The claims.
-/

/-- C1 (amended).  Scope isolation holds for the student chat pipelines: the
find_materials ToolDecision is always rewritten so that decision.dept and
decision.series equal the profile values; the scope of the executed material
query derives its dept and series from the profile only; every row a handler
run returns passed that scope filter; the check_marks sheet predicate and the
notice retrieval are hard-filtered by the profile dept/series.  The
generate_marksheet pipeline, however, only scopes its ResultSheet query to
sheets created by the acting teacher: its dept/section/series filters come
from the LLM-extracted values (see the counterexample). -/
theorem claimC1 :
    (∀ (o : FindMaterials.FindMaterialsLLMOutput) (p : StudentProfile),
      (AiChat.normalize_group_fields o p).dept = p.dept ∧
      (AiChat.normalize_group_fields o p).series = p.series) ∧
    (∀ (o : FindMaterials.FindMaterialsLLMOutput) (p : StudentProfile),
      (MaterialService.scope_of (AiChat.normalize_group_fields o p) p).dept =
        MaterialService.norm_text p.dept ∧
      (MaterialService.scope_of (AiChat.normalize_group_fields o p) p).series = p.series) ∧
    (∀ (decision : AiChat.RouteDecision) (tool_name user_text : Str) (p : StudentProfile)
      (planner : Option FindMaterials.FindMaterialsData) (db : MaterialService.MaterialDB)
      (r : MaterialService.HandlerResult),
      AiChat.run_tool_and_get_assistant_text decision tool_name user_text p planner db =
        .toolResult r →
      r.query.dept = p.dept ∧ r.query.series = p.series) ∧
    (∀ (db : MaterialService.MaterialDB) (parsed : FindMaterials.FindMaterialsLLMOutput)
      (p : StudentProfile) (it : MaterialService.MaterialRow × Nat),
      it ∈ (MaterialService.find_materials_handler db parsed p).items →
      MaterialService.apply_scope_filters (MaterialService.scope_of parsed p) it.1 = true) ∧
    (∀ (student : StudentProfile) (key : Str) (ct : Option Int) (s : CheckMarks.ResultSheetRow),
      CheckMarks.base_sheet_pred student key ct s = true →
      some s.dept = student.dept ∧ s.series = CheckMarks.series_str student) ∧
    (∀ (db : List Notices.NoticeRow) (dist : Notices.NoticeRow → Nat)
      (student : StudentProfile) (k : Nat) (r : Notices.NoticeRow),
      r ∈ Notices.similarity_search db dist student k →
      some r.dept = student.dept ∧ r.series = Notices.series_str student) ∧
    (∀ (tid : Str) (d : Marksheet.MarksheetData) (f : Marksheet.SheetFilter),
      Marksheet.marksheet_step tid d = .query f → f.created_by_teacher_id = tid) := by
  refine ⟨fun o p => ⟨rfl, rfl⟩, ?_, ?_, ?_, ?_, ?_, ?_⟩
  · intro o p
    constructor
    · show MaterialService.py_or (MaterialService.norm_text p.dept)
        (MaterialService.norm_text p.dept) = MaterialService.norm_text p.dept
      exact MaterialService.py_or_self _
    · show MaterialService.series_from_profile p.series p.series = p.series
      exact MaterialService.series_from_profile_self _
  · intro decision tool_name user_text p planner db r h
    obtain ⟨data, output, -, -, -, hr⟩ := AiChat.run_toolResult_inv h
    subst hr
    exact ⟨rfl, rfl⟩
  · intro db parsed p it h
    exact (MaterialService.mem_handler_rows h).1
  · intro student key ct s h
    unfold CheckMarks.base_sheet_pred at h
    simp only [Bool.and_eq_true, beq_iff_eq] at h
    exact ⟨h.1.1.1, h.1.1.2⟩
  · intro db dist student k r h
    unfold Notices.similarity_search at h
    split at h
    · simp at h
    · have h1 := mem_sortLe.mp (List.mem_of_mem_take h)
      have h2 := List.of_mem_filter h1
      unfold Notices.access_pred at h2
      simp only [Bool.and_eq_true, beq_iff_eq] at h2
      exact ⟨h2.1.1.2, h2.1.2⟩
  · intro tid d f h
    unfold Marksheet.marksheet_step at h
    split at h
    · cases h
    split at h
    · cases h
    split at h
    · next cts =>
      cases h
      rfl
    · cases h

/-- Witness for C1: for a decision that claims dept EEE series 21, the
normalized decision carries the CSE/23 profile values. -/
theorem claimC1_witness :
    (AiChat.normalize_group_fields
      { material_type := .class_note, dept := some (strL "EEE"), series := some (strL "21") }
      { dept := some (strL "CSE"), series := some (strL "23") }).dept = some (strL "CSE") ∧
    (AiChat.normalize_group_fields
      { material_type := .class_note, dept := some (strL "EEE"), series := some (strL "21") }
      { dept := some (strL "CSE"), series := some (strL "23") }).series = some (strL "23") :=
  claimC1.1 _ _

/-- Counterexample for C1 as stated: a teacher whose profile dept is CSE asks
for a marksheet of dept EEE; the executed ResultSheet query is filtered by the
extracted dept EEE (and only scoped to the teacher by created_by_teacher_id),
not by the profile dept. -/
theorem claimC1_counterexample :
    Marksheet.marksheet_step (strL "t1")
      { mode := some (strL "ok"), dept := some (strL "EEE"), sect := some (strL "A"),
        series := some (strL "23"), course_code := some (strL "CSE-1202"),
        ct_no := some (.ints [1]) } =
      .query { created_by_teacher_id := strL "t1", dept := strL "EEE", sect := strL "A",
               series := strL "23", course_code := strL "CSE-1202", ct_list := [1] } ∧
    strL "EEE" ≠ strL "CSE" := by
  constructor
  · decide
  · decide

/-- C2.  For every user text containing a personal-information keyword, the
chat turn takes the blocked/refusal path for every possible router decision
(intent and tool name), every planner output, every profile and every database:
the result is the fixed refusal branch, which carries no tool-handler output,
so no tool handler runs and no material/notice/result-sheet query executes. -/
theorem claimC2 (decision : AiChat.RouteDecision) (tool_name user_text : Str)
    (profile : StudentProfile) (planner : Option FindMaterials.FindMaterialsData)
    (db : MaterialService.MaterialDB)
    (h : AiChat.is_personal_info_question user_text = true) :
    AiChat.run_tool_and_get_assistant_text decision tool_name user_text profile planner db =
      .blockedRefusal := by
  unfold AiChat.run_tool_and_get_assistant_text
  rw [if_pos (Or.inr h)]

/-- Witness for C2: the question "what is my roll number" is refused even when
the router votes use_tool with a valid tool. -/
theorem claimC2_witness :
    AiChat.is_personal_info_question (strL "what is my roll number") = true ∧
    AiChat.run_tool_and_get_assistant_text
      { intent := strL "use_tool", tool_name := some (strL "find_materials") }
      (strL "find_materials") (strL "what is my roll number") exStudent
      (some { material_type := some (strL "class_note") }) exMaterialDb = .blockedRefusal :=
  ⟨by decide, claimC2 _ _ _ _ _ _ (by decide)⟩

/-- C3.  Grounding noninterference of check_marks: the final grounded answer
call receives exactly one assistant message whose content is the DB-derived
context (course_code, course_name, ct_no, marks, teacher_name), and any two
pipeline runs over the same database that fetch the same ResultSheet row and
the same ResultEntry row build an identical grounding call, whatever the two
extraction outputs were (hence whatever the conversation history or the raw
user text was, since those influence the run only through the extraction
oracle). -/
theorem claimC3 (db : CheckMarks.CheckMarksDB) (student : StudentProfile)
    (p1 p2 : Option CheckMarks.CheckMarksData) (s : CheckMarks.ResultSheetRow)
    (e : CheckMarks.ResultEntryRow)
    (c1 c2 : List (CheckMarks.GroundRole × CheckMarks.GroundContent))
    (h1 : CheckMarks.run_check_marks_pipeline db student p1 = .ok (.grounded s e c1))
    (h2 : CheckMarks.run_check_marks_pipeline db student p2 = .ok (.grounded s e c2)) :
    c1 = c2 ∧ ∃ ctx, c1 = [(.assistant, .dbContext ctx)] := by
  obtain ⟨ex1, hex1, hm1, hl1, hc1⟩ := CheckMarks.run_grounded_inv h1
  obtain ⟨ex2, hex2, hm2, hl2, hc2⟩ := CheckMarks.run_grounded_inv h2
  obtain ⟨hpred1, -⟩ := CheckMarks.sheet_lookup_found hl1
  obtain ⟨hpred2, -⟩ := CheckMarks.sheet_lookup_found hl2
  unfold CheckMarks.base_sheet_pred at hpred1 hpred2
  simp only [Bool.and_eq_true, beq_iff_eq] at hpred1 hpred2
  obtain ⟨⟨⟨-, -⟩, hk1⟩, hct1⟩ := hpred1
  obtain ⟨⟨⟨-, -⟩, hk2⟩, hct2⟩ := hpred2
  obtain ⟨hne1, raw1, hraw1, -⟩ := CheckMarks.extract_ok_mode_ok hex1 hm1
  obtain ⟨hne2, raw2, hraw2, -⟩ := CheckMarks.extract_ok_mode_ok hex2 hm2
  have hkey : CheckMarks.course_code_key ex1.course_code =
      CheckMarks.course_code_key ex2.course_code := by
    rw [← hk1, ← hk2]
  have hne1b : CheckMarks.normalize_course_code raw1 ≠ [] := by
    rw [← hraw1]; exact hne1
  have hne2b : CheckMarks.normalize_course_code raw2 ≠ [] := by
    rw [← hraw2]; exact hne2
  rw [hraw1, hraw2] at hkey
  have hcc : ex1.course_code = ex2.course_code := by
    rw [hraw1, hraw2]
    exact CheckMarks.normalize_course_code_key_inj hne1b hne2b hkey
  have hct : ex1.ct_no = ex2.ct_no := by rw [← hct1, ← hct2]
  have hctx : CheckMarks.grounded_ctx_of db s e ex1 = CheckMarks.grounded_ctx_of db s e ex2 := by
    unfold CheckMarks.grounded_ctx_of
    rw [hcc, hct]
  constructor
  · rw [hc1, hc2, hctx]
  · exact ⟨CheckMarks.grounded_ctx_of db s e ex1, by rw [hc1]; rfl⟩

/-- Witness for C3: two extractions of the same request, one as cse1202 with
an integer CT, one as CSE 1202 with a string CT, ground against the same sheet
and entry and produce the identical single-message grounded call. -/
theorem claimC3_witness :
    CheckMarks.run_check_marks_pipeline cmDb exStudent (some cmD1) =
      .ok (.grounded cmSheet cmEntry (CheckMarks.answer_messages cmCtx)) ∧
    CheckMarks.run_check_marks_pipeline cmDb exStudent (some cmD2) =
      .ok (.grounded cmSheet cmEntry (CheckMarks.answer_messages cmCtx)) ∧
    (CheckMarks.answer_messages cmCtx = CheckMarks.answer_messages cmCtx ∧
      ∃ ctx, CheckMarks.answer_messages cmCtx = [(.assistant, .dbContext ctx)]) :=
  ⟨by decide, by decide,
    claimC3 cmDb exStudent (some cmD1) (some cmD2) cmSheet cmEntry _ _ (by decide) (by decide)⟩

/-- C4.  Strict-then-broad fallback of the material search: the handler
returns the strict-phase rows when there are any and the broad-phase rows
exactly when the strict phase yielded zero rows; and (at the default
pagination, offset zero and a positive limit, which validation guarantees)
whenever the broad predicates match at least one in-scope row the fallback
result is non-empty rather than an empty result. -/
theorem claimC4 (db : MaterialService.MaterialDB) (parsed : FindMaterials.FindMaterialsLLMOutput)
    (profile : StudentProfile) (hoff : parsed.offset = 0) (hlim : 1 ≤ parsed.limit) :
    ((MaterialService.find_materials_handler db parsed profile).items =
      if MaterialService.run_phase (MaterialService.table_for db parsed.material_type)
          (MaterialService.model_for parsed.material_type)
          (MaterialService.scope_of parsed profile) (MaterialService.norm_signals parsed)
          parsed.sort_by parsed.offset parsed.limit .strict = [] then
        MaterialService.run_phase (MaterialService.table_for db parsed.material_type)
          (MaterialService.model_for parsed.material_type)
          (MaterialService.scope_of parsed profile) (MaterialService.norm_signals parsed)
          parsed.sort_by parsed.offset parsed.limit .broad
      else
        MaterialService.run_phase (MaterialService.table_for db parsed.material_type)
          (MaterialService.model_for parsed.material_type)
          (MaterialService.scope_of parsed profile) (MaterialService.norm_signals parsed)
          parsed.sort_by parsed.offset parsed.limit .strict) ∧
    (MaterialService.run_phase (MaterialService.table_for db parsed.material_type)
        (MaterialService.model_for parsed.material_type)
        (MaterialService.scope_of parsed profile) (MaterialService.norm_signals parsed)
        parsed.sort_by parsed.offset parsed.limit .strict = [] →
      (∃ r ∈ MaterialService.table_for db parsed.material_type,
        MaterialService.apply_scope_filters (MaterialService.scope_of parsed profile) r = true ∧
        MaterialService.broad_filter (MaterialService.model_for parsed.material_type)
          (MaterialService.norm_signals parsed) r = true) →
      (MaterialService.find_materials_handler db parsed profile).items ≠ []) := by
  constructor
  · rfl
  · intro hempty hex
    obtain ⟨r, hrt, hsc, hbf⟩ := hex
    show MaterialService.handler_rows db parsed profile ≠ []
    unfold MaterialService.handler_rows
    rw [if_pos hempty]
    have hmem2 : r ∈ ((MaterialService.table_for db parsed.material_type).filter
        (MaterialService.apply_scope_filters (MaterialService.scope_of parsed profile))).filter
        (MaterialService.apply_phase_filters (MaterialService.model_for parsed.material_type)
          .broad (MaterialService.norm_signals parsed)) :=
      List.mem_filter.mpr ⟨List.mem_filter.mpr ⟨hrt, hsc⟩, hbf⟩
    have hlen : 0 < (((MaterialService.table_for db parsed.material_type).filter
        (MaterialService.apply_scope_filters (MaterialService.scope_of parsed profile))).filter
        (MaterialService.apply_phase_filters (MaterialService.model_for parsed.material_type)
          .broad (MaterialService.norm_signals parsed))).length :=
      List.length_pos.mpr (List.ne_nil_of_mem hmem2)
    apply List.ne_nil_of_length_pos
    unfold MaterialService.run_phase
    rw [List.length_take, List.length_drop, length_sortLe, List.length_map, hoff]
    omega

/-- Witness for C4: a query whose strict phase misses (wrong topic) but whose
broad phase hits through the course name still returns rows. -/
theorem claimC4_witness :
    (MaterialService.find_materials_handler exMaterialDb exBroadParsed exStudent).items ≠ [] := by
  have h := claimC4 exMaterialDb exBroadParsed exStudent rfl (by decide)
  exact h.2 (by decide) ⟨exNote, by decide, by decide, by decide⟩

/-- C5.  Ranking order and tie-break determinism: the order_by model sorts by
match_score descending then created_at in the requested direction (the sorted
list, and hence the returned rows, are pairwise ordered by that relation); the
sort is stable, so rows with an identical (match_score, created_at) key come
back in input order; limit/offset pagination applies after the ranking (the
run_phase equation); and the score components rank an exact course_code match
(100) above a partial course_code match (60), above course_name (50), topic
(40) and written_by (20) partial matches. -/
theorem claimC5 :
    (∀ (sb : FindMaterials.SortBy) (l : List (MaterialService.MaterialRow × Nat)),
      (sortLe (MaterialService.row_le sb) l).Pairwise
        (fun a b => MaterialService.row_le sb a b = true)) ∧
    (∀ (db : MaterialService.MaterialDB) (parsed : FindMaterials.FindMaterialsLLMOutput)
      (profile : StudentProfile),
      ((MaterialService.find_materials_handler db parsed profile).items).Pairwise
        (fun a b => MaterialService.row_le parsed.sort_by a b = true)) ∧
    (∀ (sb : FindMaterials.SortBy) (l : List (MaterialService.MaterialRow × Nat))
      (k : Nat × Nat),
      (sortLe (MaterialService.row_le sb) l).filter (fun a => MaterialService.row_key a == k) =
        l.filter (fun a => MaterialService.row_key a == k)) ∧
    (∀ (table : List MaterialService.MaterialRow) (M : MaterialService.MaterialModel)
      (sc : MaterialService.Scope) (q : MaterialService.Query) (sb : FindMaterials.SortBy)
      (off lim : Nat) (phase : MaterialService.Phase),
      MaterialService.run_phase table M sc q sb off lim phase =
        ((sortLe (MaterialService.row_le sb)
            (((table.filter (MaterialService.apply_scope_filters sc)).filter
              (MaterialService.apply_phase_filters M phase q)).map
              (fun r => (r, MaterialService.score_expr M q r)))).drop off).take lim) ∧
    (∀ (cc : Str) (r : MaterialService.MaterialRow),
      r.course_code = cc → MaterialService.code_score (some cc) r = 100) ∧
    (∀ (cc : Str) (r : MaterialService.MaterialRow),
      r.course_code ≠ cc → MaterialService.ilike_contains r.course_code cc = true →
      MaterialService.code_score (some cc) r = 60) ∧
    (∀ (cn : Str) (r : MaterialService.MaterialRow),
      MaterialService.ilike_contains r.course_name cn = true →
      MaterialService.name_score (some cn) r = 50) ∧
    (∀ (M : MaterialService.MaterialModel) (t : Str) (r : MaterialService.MaterialRow),
      M.has_topic = true → MaterialService.ilike_contains r.topic t = true →
      MaterialService.topic_score M (some t) r = 40) ∧
    (∀ (M : MaterialService.MaterialModel) (w : Str) (r : MaterialService.MaterialRow),
      M.has_written_by = true → MaterialService.ilike_contains r.written_by w = true →
      MaterialService.written_by_score M (some w) r = 20) ∧
    ((60 : Nat) < 100 ∧ (50 : Nat) < 60 ∧ (40 : Nat) < 50 ∧ (20 : Nat) < 40) := by
  refine ⟨?_, ?_, ?_, ?_, ?_, ?_, ?_, ?_, ?_, by omega⟩
  · intro sb l
    exact pairwise_sortLe (MaterialService.row_le_total sb) (MaterialService.row_le_trans sb) l
  · intro db parsed profile
    show (MaterialService.handler_rows db parsed profile).Pairwise _
    unfold MaterialService.handler_rows
    split <;>
      · unfold MaterialService.run_phase
        apply List.Pairwise.sublist ((List.take_sublist _ _).trans (List.drop_sublist _ _))
        exact pairwise_sortLe (MaterialService.row_le_total _) (MaterialService.row_le_trans _) _
  · intro sb l k
    refine filter_sortLe ?_ l
    intro a b ha hb
    have hka : MaterialService.row_key a = k := by simpa [beq_iff_eq] using ha
    have hkb : MaterialService.row_key b = k := by simpa [beq_iff_eq] using hb
    exact MaterialService.row_le_of_key_eq sb a b (hka.trans hkb.symm)
  · intro table M sc q sb off lim phase
    rfl
  · intro cc r h
    simp [MaterialService.code_score, h]
  · intro cc r h1 h2
    simp [MaterialService.code_score, beq_iff_eq, h1, h2]
  · intro cn r h
    simp [MaterialService.name_score, h]
  · intro M t r hM h
    simp [MaterialService.topic_score, hM, h]
  · intro M w r hM h
    simp [MaterialService.written_by_score, hM, h]

/-- Witness for C5: the returned rows of the broad-fallback example are
pairwise ordered, and the exact course-code match of the example note scores
100. -/
theorem claimC5_witness :
    ((MaterialService.find_materials_handler exMaterialDb exBroadParsed exStudent).items).Pairwise
      (fun a b => MaterialService.row_le exBroadParsed.sort_by a b = true) ∧
    MaterialService.code_score (some (strL "CSE-1202")) exNote = 100 :=
  ⟨claimC5.2.1 exMaterialDb exBroadParsed exStudent,
    claimC5.2.2.2.2.1 (strL "CSE-1202") exNote (by decide)⟩

/-- C6.  Material sub-type field exclusivity: raw planner data that populates
a field belonging to a different material sub-type never validates; any
instance that does validate carries none for every foreign field (so no query
is ever built from one); and when validation fails the chat turn ends in a
wrong-tool or clarification text, never in a tool run. -/
theorem claimC6 :
    (∀ (d : FindMaterials.FindMaterialsData) (mt : FindMaterials.MaterialType),
      FindMaterials.parse_material_type d.material_type = .ok mt →
      FindMaterials.foreign_field_set mt d = true →
      ∃ e, FindMaterials.validate_find_materials d = .error e) ∧
    (∀ (d : FindMaterials.FindMaterialsData) (o : FindMaterials.FindMaterialsLLMOutput),
      FindMaterials.validate_find_materials d = .ok o →
      (o.material_type = .class_note → o.ct_no = none ∧ o.year = none) ∧
      (o.material_type = .lecture_slide → o.written_by = none ∧ o.ct_no = none ∧ o.year = none) ∧
      (o.material_type = .ct_question → o.topic = none ∧ o.written_by = none ∧ o.year = none) ∧
      (o.material_type = .semester_question →
        o.topic = none ∧ o.written_by = none ∧ o.ct_no = none)) ∧
    (∀ (decision : AiChat.RouteDecision) (tool_name user_text : Str)
      (profile : StudentProfile) (d : FindMaterials.FindMaterialsData)
      (db : MaterialService.MaterialDB) (e : FindMaterials.ValErr),
      FindMaterials.validate_find_materials (FindMaterials.sanitize d) = .error e →
      ∀ r, AiChat.run_tool_and_get_assistant_text decision tool_name user_text profile
        (some d) db ≠ .toolResult r) := by
  refine ⟨?_, ?_, ?_⟩
  · intro d mt hparse hforeign
    exact FindMaterials.validate_foreign_fails hparse hforeign
  · intro d o h
    obtain ⟨r1, r2, r3, r4, -⟩ := FindMaterials.validate_ok_rules h
    exact ⟨r4, r3, r1, r2⟩
  · intro decision tool_name user_text profile d db e herr r hrun
    obtain ⟨data, output, hdata, hval, -, -⟩ := AiChat.run_toolResult_inv hrun
    cases hdata
    rw [hval] at herr
    cases herr

/-- Witness for C6: a class_note decision carrying ct_no fails validation. -/
theorem claimC6_witness :
    ∃ e, FindMaterials.validate_find_materials exForeignData = .error e :=
  claimC6.1 exForeignData .class_note (by decide) (by decide)

/-- C7 (amended).  Ask-mode contract: every find_materials decision with
mode=ask that passes schema validation carries a non-empty question (enforced
at validation time), and no database or generation action executes for an
ask-mode decision in either pipeline (a tool run happens only for a query-mode
decision, and the check_marks pipeline answers an ask decision with its
clarification text before any lookup).  The check_marks schema itself does NOT
enforce the question: a validated CheckMarksExtracted with mode=ask and no
question is constructible (see the counterexample), the pipeline then falling
back to a canned clarification text. -/
theorem claimC7 :
    (∀ (d : FindMaterials.FindMaterialsData) (o : FindMaterials.FindMaterialsLLMOutput),
      FindMaterials.validate_find_materials d = .ok o → o.mode = .ask →
      ∃ q, o.question = some q ∧ q ≠ []) ∧
    (∀ (decision : AiChat.RouteDecision) (tool_name user_text : Str)
      (profile : StudentProfile) (planner : Option FindMaterials.FindMaterialsData)
      (db : MaterialService.MaterialDB) (r : MaterialService.HandlerResult),
      AiChat.run_tool_and_get_assistant_text decision tool_name user_text profile planner db =
        .toolResult r → r.query.mode = .query) ∧
    (∀ (db : CheckMarks.CheckMarksDB) (student : StudentProfile)
      (p0 : Option CheckMarks.CheckMarksData) (ex : CheckMarks.CheckMarksExtracted),
      CheckMarks.extract_json p0 = .ok ex → ex.mode = .ask →
      CheckMarks.run_check_marks_pipeline db student p0 =
        .ok (.askMsg ((truthyOpt ex.question).getD CheckMarks.short_ask_text))) := by
  refine ⟨?_, ?_, ?_⟩
  · intro d o h hask
    exact (FindMaterials.validate_ok_rules h).2.2.2.2 hask
  · intro decision tool_name user_text profile planner db r h
    obtain ⟨data, output, -, -, hmode, hr⟩ := AiChat.run_toolResult_inv h
    subst hr
    cases hq : (AiChat.normalize_group_fields output profile).mode with
    | query => exact hq
    | ask => exact absurd hq hmode
  · intro db student p0 ex hex hm
    simp only [CheckMarks.run_check_marks_pipeline, hex, hm]

/-- Witness for C7: the validated ask decision of the example carries its
non-empty question. -/
theorem claimC7_witness :
    ∃ q, exAskOut.question = some q ∧ q ≠ [] :=
  claimC7.1 exAskData exAskOut (by decide) rfl

/-- Counterexample for C7 as stated: the check_marks schema validates an
ask-mode object with no question at all. -/
theorem claimC7_counterexample :
    CheckMarks.validate_check_marks { mode := some (strL "ask") } =
      .ok { mode := .ask, course_code := [], ct_no := none, question := none,
            missing_fields := [], message := none } ∧
    (CheckMarks.CheckMarksExtracted.question
      { mode := .ask, course_code := [], ct_no := none, question := none,
        missing_fields := [], message := none }) = none := by
  constructor
  · decide
  · rfl

/-- C8.  Notice visibility scope: every notice the similarity search returns
carries the dept and series of the acting student; for a student whose section
normalizes to S the returned notices have section S or null, and for a student
without a normalizable section only null-section notices come back; and a
null-section notice of the right dept/series satisfies the access predicate
for every student, whatever their section value is. -/
theorem claimC8 :
    (∀ (db : List Notices.NoticeRow) (dist : Notices.NoticeRow → Nat)
      (student : StudentProfile) (k : Nat) (r : Notices.NoticeRow),
      r ∈ Notices.similarity_search db dist student k →
      some r.dept = student.dept ∧ r.series = Notices.series_str student ∧
      (∀ s, Notices.normalize_section (Notices.sec_of student) = some s →
        r.sec = some s ∨ r.sec = none) ∧
      (Notices.normalize_section (Notices.sec_of student) = none → r.sec = none)) ∧
    (∀ (student : StudentProfile) (r : Notices.NoticeRow),
      r.has_embedding = true → some r.dept = student.dept →
      r.series = Notices.series_str student → r.sec = none →
      Notices.access_pred student r = true) := by
  constructor
  · intro db dist student k r h
    unfold Notices.similarity_search at h
    split at h
    · simp at h
    · have h1 := mem_sortLe.mp (List.mem_of_mem_take h)
      have h2 := List.of_mem_filter h1
      unfold Notices.access_pred at h2
      simp only [Bool.and_eq_true, beq_iff_eq] at h2
      obtain ⟨⟨⟨-, hdept⟩, hser⟩, hsec⟩ := h2
      refine ⟨hdept, hser, ?_, ?_⟩
      · intro s hs
        rw [hs] at hsec
        simp only [Bool.or_eq_true, beq_iff_eq] at hsec
        exact hsec
      · intro hs
        rw [hs] at hsec
        simp only [beq_iff_eq] at hsec
        exact hsec
  · intro student r hemb hdept hser hsec
    unfold Notices.access_pred
    rw [hemb, hsec, ← hdept, hser]
    cases Notices.normalize_section (Notices.sec_of student) <;> simp

/-- Witness for C8: the null-section notice of the example passes the access
predicate of the sectioned example student. -/
theorem claimC8_witness :
    Notices.access_pred exStudent exNullSecNotice = true :=
  claimC8.2 exStudent exNullSecNotice (by decide) (by decide) (by decide) (by decide)

/-- C9.  Intent Gate defensive parsing (modelled from the spec: gate_intent is
imported by ai_chat_service_teacher.py and its three-bucket prompt is in
sys_prompts.py, but the function body is absent from the source tree).  For
every classifier output string: a direct parse is used as is; when the direct
parse fails, the substring from the first opening to the last closing brace is
parsed instead; and when that also fails (or no braces exist) the gate returns
the default decision, whose intent is tool_query, instead of raising. -/
theorem claimC9 (p : Str → Option IntentGate.GateDecision) (raw : Str) :
    (∀ d, p raw = some d → IntentGate.gate_intent p raw = d) ∧
    (p raw = none → ∀ sub d, IntentGate.extract_braces raw = some sub → p sub = some d →
      IntentGate.gate_intent p raw = d) ∧
    (p raw = none → IntentGate.extract_braces raw = none →
      IntentGate.gate_intent p raw = IntentGate.default_decision) ∧
    (p raw = none → ∀ sub, IntentGate.extract_braces raw = some sub → p sub = none →
      IntentGate.gate_intent p raw = IntentGate.default_decision) ∧
    IntentGate.default_decision.intent = strL "tool_query" := by
  refine ⟨?_, ?_, ?_, ?_, rfl⟩
  · intro d hd
    simp [IntentGate.gate_intent, hd]
  · intro hnone sub d hsub hd
    simp [IntentGate.gate_intent, hnone, hsub, hd]
  · intro hnone hsub
    simp [IntentGate.gate_intent, hnone, hsub]
  · intro hnone sub hsub hd
    simp [IntentGate.gate_intent, hnone, hsub, hd]

/-- Witness for C9: a classifier output with no JSON at all still yields the
tool_query default. -/
theorem claimC9_witness :
    IntentGate.gate_intent (fun _ => none) (strL "not json at all") =
      IntentGate.default_decision ∧
    IntentGate.default_decision.intent = strL "tool_query" := by
  have h := claimC9 (fun _ => none) (strL "not json at all")
  exact ⟨h.2.2.1 rfl (by decide), h.2.2.2.2⟩

/-- C10 (amended).  The check_marks course-code normalizer only ever returns
the empty string or a code of the canonical shape exactly-3-letters, hyphen,
exactly-4-digits; inputs whose parts cannot be reduced to that shape (such as
CE-1202 with a two-letter prefix, or CSE-120 with three digits) yield the
empty string, and the pipeline then returns a mode=ask clarification with
missing_fields containing course_code instead of performing the marks lookup.
The normalizer is not limited to inputs that are already exactly 3 letters and
4 digits, though: the hyphen-recovery branch truncates a longer alphabetic
part to its first three letters and a longer digit part to its first four
digits (ARCH-1202 becomes ARC-1202, see the counterexample). -/
theorem claimC10 :
    (∀ raw, CheckMarks.normalize_course_code raw = [] ∨
      ∃ l r, CheckMarks.normalize_course_code raw = l ++ '-' :: r ∧ l.length = 3 ∧
        r.length = 4 ∧ (∀ c ∈ l, isAlphaCh c = true) ∧ (∀ c ∈ r, isDigitCh c = true)) ∧
    (CheckMarks.normalize_course_code (strL "CE-1202") = [] ∧
      CheckMarks.normalize_course_code (strL "CSE-120") = []) ∧
    (∀ (d : CheckMarks.CheckMarksData) (parsed : CheckMarks.CheckMarksExtracted),
      CheckMarks.validate_check_marks d = .ok parsed → parsed.mode = .ok →
      CheckMarks.normalize_course_code parsed.course_code = [] →
      ∃ ex, CheckMarks.extract_json (some d) = .ok ex ∧ ex.mode = .ask ∧
        strL "course_code" ∈ ex.missing_fields ∧
        ∀ (db : CheckMarks.CheckMarksDB) (student : StudentProfile),
          CheckMarks.run_check_marks_pipeline db student (some d) =
            .ok (.askMsg CheckMarks.default_ask_question)) := by
  refine ⟨?_, ⟨by decide, by decide⟩, ?_⟩
  · intro raw
    rcases CheckMarks.normalize_course_code_shape raw with h | ⟨l, r, he, hl, hr, hca, hcr⟩
    · exact Or.inl h
    · exact Or.inr ⟨l, r, he, hl, hr, fun c hc => (hca c hc).1, fun c hc => (hcr c hc).1⟩
  · intro d parsed hv hm hnorm
    have hmiss_ne : CheckMarks.missing_of parsed ≠ [] := by
      unfold CheckMarks.missing_of
      rw [if_pos hnorm]
      simp
    have hextract : CheckMarks.extract_json (some d) =
        .ok { mode := .ask, course_code := [], ct_no := none,
              question := some CheckMarks.default_ask_question,
              missing_fields := CheckMarks.missing_of parsed, message := none } := by
      unfold CheckMarks.extract_json
      simp only [Option.getD_some, hv]
      rw [if_pos hm, if_neg hmiss_ne]
    refine ⟨_, hextract, rfl, ?_, ?_⟩
    · show strL "course_code" ∈ CheckMarks.missing_of parsed
      unfold CheckMarks.missing_of
      rw [if_pos hnorm]
      exact List.mem_append_left _ (List.mem_singleton.mpr rfl)
    · intro db student
      simp only [CheckMarks.run_check_marks_pipeline, hextract]
      rfl

/-- Counterexample for C10 as stated: ARCH-1202 has a four-letter prefix, yet
the normalizer returns the non-empty ARC-1202 instead of the empty string. -/
theorem claimC10_counterexample :
    CheckMarks.normalize_course_code (strL "ARCH-1202") = strL "ARC-1202" ∧
    strL "ARC-1202" ≠ [] := by
  constructor
  · decide
  · decide

/-- Witness for C10: a marks request for CE-1202 CT-2 normalizes to the empty
code and the pipeline answers with the clarification ask. -/
theorem claimC10_witness :
    CheckMarks.run_check_marks_pipeline {} {} (some cmBadCode) =
      .ok (.askMsg CheckMarks.default_ask_question) := by
  obtain ⟨ex, -, -, -, hrun⟩ := claimC10.2.2 cmBadCode cmBadParsed (by decide) rfl (by decide)
  exact hrun {} {}
